import Mathlib

/-!
Verification of the SQL-to-flow-graph compiler of the viewsql repository.

The development shallowly embeds the code of
`src/my-app/src/lib/sql/ast-to-graph.ts` (graph builder and column-lineage
tracer), `src/my-app/src/lib/sql/expr-utils.ts` (expression analyzer) and the
edge-partition step of `src/my-app/src/lib/flow/layout.ts` (layout engine).

Conventions of the embedding:
* JavaScript `Map`s are association lists with JavaScript semantics:
  `set` overwrites the value of an existing key in place (keeping its
  position) and appends new keys at the end; iteration follows list order.
* JavaScript `Set`s of strings are duplicate-free lists in insertion order.
* Node ids `` `${tag}_${counter}` `` are built with an executable decimal
  renderer `natStr` so that they can be evaluated and reasoned about.
* Exceptions are `Option`/`Except`: the external SQL parser is modelled as an
  `Except String Stmt` input, and the unboundedly recursive lineage tracer is
  modelled with explicit fuel (`none` = the fuel ran out).
-/

namespace ViewSql

/-! ### Association-list model of JavaScript Map / Set -/

/-- JavaScript `Map.get`: value of the (unique) entry for key `k`. -/
def assocGet {α : Type} (m : List (String × α)) (k : String) : Option α :=
  match m with
  | [] => none
  | (k', v) :: rest => if k' = k then some v else assocGet rest k

/-- JavaScript `Map.set`: overwrite the entry for `k` in place, or append. -/
def assocSet {α : Type} (m : List (String × α)) (k : String) (v : α) :
    List (String × α) :=
  match m with
  | [] => [(k, v)]
  | (k', v') :: rest =>
    if k' = k then (k, v) :: rest else (k', v') :: assocSet rest k v

/-- JavaScript `Set.add` for strings: insert at the end if absent. -/
def setAdd (s : List String) (x : String) : List String :=
  if s.contains x then s else s ++ [x]

/-! ### Decimal rendering of the node counter -/

/-- One decimal digit character. -/
def digitChar : Nat → Char
  | 0 => '0' | 1 => '1' | 2 => '2' | 3 => '3' | 4 => '4'
  | 5 => '5' | 6 => '6' | 7 => '7' | 8 => '8' | 9 => '9'
  | _ => 'x'

/-- Numeric value of a digit character. -/
def digitVal (c : Char) : Nat := c.toNat - 48

/-- Decimal digits of `n`, most significant first; `fuel` bounds the recursion
(`fuel = n` is always enough). -/
def natChars : Nat → Nat → List Char
  | 0, n => [digitChar (n % 10)]
  | fuel + 1, n =>
    if n < 10 then [digitChar n] else natChars fuel (n / 10) ++ [digitChar (n % 10)]

/-- Decimal rendering of a natural number (JavaScript `${n}`). -/
def natStr (n : Nat) : String := ⟨natChars n n⟩

/-- Value of a digit string, most significant digit first. -/
def parseDigits (l : List Char) : Nat := l.foldl (fun a c => a * 10 + digitVal c) 0

/-- The maximal digit-only suffix of a string. -/
def digitSuffix (s : String) : List Char :=
  (s.data.reverse.takeWhile Char.isDigit).reverse

/-- The counter encoded at the end of a generated node id. -/
def idNum (s : String) : Nat := parseDigits (digitSuffix s)

/-- `` `${tag}_${k}` ``: the id produced by `FlowGraphBuilder.nextId`. -/
def mkId (tag : String) (k : Nat) : String := tag ++ "_" ++ natStr k

/-! ### External schema metadata (`introspect.ts`, consumed fields only) -/

structure SchemaColumn where
  name : String
  dataType : String
  deriving Repr, DecidableEq

structure SchemaTable where
  name : String
  columns : List SchemaColumn
  deriving Repr, DecidableEq

/-! ### The consumed fragment of the pgsql-ast-parser AST -/

/-- Expression AST nodes actually consumed by the compiler.  `unsupported`
stands for the remaining expression shapes of the external parser, which the
external `toSql` renderer rejects by throwing. -/
inductive Expr where
  | ref (table : Option String) (name : String)
  | call (fn : String) (args : List Expr)
  | binary (op : String) (l r : Expr)
  | intLit (v : Int)
  | strLit (v : String)
  | unsupported (tag : String)
  deriving Repr

/-- One FROM-clause join annotation (`FromTable.join`). -/
structure JoinInfo where
  joinType : Option String
  onExpr : Option Expr
  deriving Repr

/-- One `table`-kind FROM entry (`FromTable`). -/
structure TableRef where
  name : String
  aliasName : Option String
  joinInfo : Option JoinInfo
  deriving Repr

/-- A FROM-clause entry; non-`table` entries are skipped by the builder. -/
inductive FromItem where
  | table (t : TableRef)
  | other (tag : String)
  deriving Repr

/-- One SELECT-list item (`{expr, alias?}`). -/
structure SelectColumn where
  expr : Option Expr
  aliasName : Option String
  deriving Repr

/-- One ORDER BY item (`{by}`). -/
structure OrderByItem where
  byExpr : Expr
  deriving Repr

/-- A `select` statement, restricted to the consumed fields; `limit` models
`select.limit?.limit`. -/
structure SelectStmt where
  columns : Option (List SelectColumn)
  fromItems : Option (List FromItem)
  whereClause : Option Expr
  groupBy : Option (List Expr)
  orderBy : Option (List OrderByItem)
  limit : Option Expr
  deriving Repr

/-- A parsed top-level statement: `select`, `with` (ordered CTE bindings, each
an alias name with its statement, plus the inner statement), or any other
statement kind. -/
inductive Stmt where
  | select (s : SelectStmt)
  | withStmt (binds : List (String × Stmt)) (inner : Stmt)
  | other (tag : String)

/-! ### Flow-graph data model (`types.ts`) -/

structure ColumnRef where
  name : String
  sourceTable : Option String := none
  sourceColumn : Option String := none
  dataType : Option String := none
  deriving Repr, DecidableEq

inductive FlowNodeData where
  | tableSource (tableName : String) (aliasName : Option String)
      (columns : List ColumnRef) (colorIndex : Nat)
  | cte (cteName : String) (outputColumns : List ColumnRef)
      (hasWhere hasGroupBy : Bool) (colorIndex : Nat)
  | cteGroup (cteName : String) (colorIndex : Nat)
  | join (joinType : String) (condition : String)
  | filter (condition : String)
  | aggregation (groupByColumns : List String) (aggregates : List String)
  | output (columns : List ColumnRef) (orderBy : Option String)
      (limit : Option Int) (tableColorMap : List (String × Nat))
  deriving Repr, DecidableEq

structure FlowNode where
  id : String
  data : FlowNodeData
  parentCteId : Option String := none
  deriving Repr, DecidableEq

structure FlowEdge where
  id : String
  source : String
  target : String
  columns : Option (List String) := none
  label : Option String := none
  animated : Option Bool := none
  deriving Repr, DecidableEq

structure FlowGraph where
  nodes : List FlowNode
  edges : List FlowEdge
  deriving Repr, DecidableEq

/-- Discriminators and projections on node payloads. -/
def isCteGroup : FlowNodeData → Bool
  | .cteGroup _ _ => true
  | _ => false

def isCte : FlowNodeData → Bool
  | .cte _ _ _ _ _ => true
  | _ => false

def isOutput : FlowNodeData → Bool
  | .output _ _ _ _ => true
  | _ => false

/-- The `(tableName, colorIndex)` of a `table-source` payload. -/
def tsInfo : FlowNodeData → Option (String × Nat)
  | .tableSource tn _ _ c => some (tn, c)
  | _ => none

/-- The `colorIndex` of a `table-source` payload. -/
def tsColor (d : FlowNodeData) : Option Nat := (tsInfo d).map (·.2)

/-! ### Expression analyzer (`expr-utils.ts`) -/

/-- A collected column reference `{table?, column}`. -/
structure TableColRef where
  table : Option String
  column : String
  deriving Repr, DecidableEq

/-- The fixed aggregate-function name set. -/
def AGGREGATE_FUNCTIONS : List String :=
  ["count", "sum", "avg", "min", "max", "array_agg", "string_agg",
   "bool_and", "bool_or", "json_agg", "jsonb_agg"]

/-- Decimal rendering of an integer. -/
def intStr (v : Int) : String :=
  if v < 0 then "-" ++ natStr (-v).toNat else natStr v.toNat

mutual
/-- Model of the external `toSql.expr` of pgsql-ast-parser: renders the
expression to SQL text, or fails (`none` models a thrown exception) when the
tree contains a node shape the renderer does not support. -/
def toSqlExpr : Expr → Option String
  | .ref t n => some ((match t with | some tn => tn ++ "." | none => "") ++ n)
  | .call fn args =>
    match toSqlExprList args with
    | some as => some (fn ++ "(" ++ String.intercalate ", " as ++ ")")
    | none => none
  | .binary op l r =>
    match toSqlExpr l, toSqlExpr r with
    | some ls, some rs => some ("(" ++ ls ++ " " ++ op ++ " " ++ rs ++ ")")
    | _, _ => none
  | .intLit v => some (intStr v)
  | .strLit v => some ("'" ++ v ++ "'")
  | .unsupported _ => none

def toSqlExprList : List Expr → Option (List String)
  | [] => some []
  | e :: es =>
    match toSqlExpr e, toSqlExprList es with
    | some s, some ss => some (s :: ss)
    | _, _ => none
end

/-- `exprToSql`: render an expression, returning the placeholder `"(expr)"`
when the underlying renderer fails. -/
def exprToSql (e : Expr) : String :=
  match toSqlExpr e with
  | some s => s
  | none => "(expr)"

mutual
/-- `extractColumnRefs`: collect every `ref` node of the tree, in visit
order. -/
def extractColumnRefs : Expr → List TableColRef
  | .ref t n => [⟨t, if n = "*" then "*" else n⟩]
  | .call _ args => extractColumnRefsList args
  | .binary _ l r => extractColumnRefs l ++ extractColumnRefs r
  | .intLit _ => []
  | .strLit _ => []
  | .unsupported _ => []

def extractColumnRefsList : List Expr → List TableColRef
  | [] => []
  | e :: es => extractColumnRefs e ++ extractColumnRefsList es
end

/-- `extractAggregates`: rendered text of every visited call whose name is an
aggregate.  The ast-visitor override for `call` does not descend into the
call's arguments, so calls stop the traversal. -/
def extractAggregates : Expr → List String
  | .ref _ _ => []
  | .call fn args =>
    if AGGREGATE_FUNCTIONS.contains fn.toLower then [exprToSql (.call fn args)] else []
  | .binary _ l r => extractAggregates l ++ extractAggregates r
  | .intLit _ => []
  | .strLit _ => []
  | .unsupported _ => []

/-- `containsAggregate`: existence check with the same traversal. -/
def containsAggregate : Expr → Bool
  | .ref _ _ => false
  | .call fn _ => AGGREGATE_FUNCTIONS.contains fn.toLower
  | .binary _ l r => containsAggregate l || containsAggregate r
  | .intLit _ => false
  | .strLit _ => false
  | .unsupported _ => false

/-! ### The graph builder (`ast-to-graph.ts`) -/

/-- The mutable state of one `FlowGraphBuilder` instance. -/
structure FlowGraphBuilder where
  nodes : List FlowNode
  edges : List FlowEdge
  nodeCounter : Nat
  schemaMap : List (String × SchemaTable)
  cteRegistry : List (String × String)
  aliasRegistry : List (String × String)
  tableColorMap : List (String × Nat)
  tableColorCounter : Nat
  currentRefs : List (String × List String)
  currentShowAll : Bool
  currentCteGroupId : Option String

namespace FlowGraphBuilder

/-- The constructor: fresh state, with the schema indexed by table name. -/
def init (schema : List SchemaTable) : FlowGraphBuilder :=
  { nodes := [], edges := [], nodeCounter := 0,
    schemaMap := schema.foldl (fun m t => assocSet m t.name t) [],
    cteRegistry := [], aliasRegistry := [], tableColorMap := [],
    tableColorCounter := 0, currentRefs := [], currentShowAll := false,
    currentCteGroupId := none }

/-- `nextId`: allocate `` `${tag}_${counter}` `` and bump the counter. -/
def nextId (b : FlowGraphBuilder) (tag : String) : FlowGraphBuilder × String :=
  ({ b with nodeCounter := b.nodeCounter + 1 }, mkId tag b.nodeCounter)

/-- `addNode`: tag the node with the active CTE group (unless it is itself a
`cte-group` node) and append it. -/
def addNode (b : FlowGraphBuilder) (node : FlowNode) : FlowGraphBuilder × String :=
  let node :=
    match b.currentCteGroupId with
    | some g => if isCteGroup node.data then node else { node with parentCteId := some g }
    | none => node
  ({ b with nodes := b.nodes ++ [node] }, node.id)

/-- `addEdge`: append an edge `e_<source>_<target>`. -/
def addEdge (b : FlowGraphBuilder) (source target : String)
    (columns : Option (List String)) (animated : Option Bool) : FlowGraphBuilder :=
  { b with
    edges := b.edges ++
      [{ id := "e_" ++ source ++ "_" ++ target, source := source, target := target,
         columns := columns, label := none, animated := animated }] }

/-- `getSchemaColumns`: the introspected columns of a table, as column refs. -/
def getSchemaColumns (b : FlowGraphBuilder) (tableName : String) : List ColumnRef :=
  match assocGet b.schemaMap tableName with
  | none => []
  | some t =>
    t.columns.map (fun col =>
      { name := col.name, sourceTable := some tableName,
        sourceColumn := some col.name, dataType := some col.dataType })

/-- Does some SELECT-list item read an unqualified `*`? -/
def hasUnqualifiedStar (cols : List SelectColumn) : Bool :=
  cols.any (fun col =>
    match col.expr with
    | some (.ref none n) => n = "*"
    | _ => false)

/-- The second loop of `collectReferencedColumns`: fold the collected refs into
`currentRefs`, with the early return on an unqualified `*`. -/
def buildRefMap (b : FlowGraphBuilder) : List TableColRef → FlowGraphBuilder
  | [] => b
  | r :: rest =>
    if r.column = "*" then
      match r.table with
      | some t =>
        buildRefMap { b with currentRefs := assocSet b.currentRefs t ["*"] } rest
      | none => { b with currentShowAll := true }
    else
      let key := r.table.getD "__unqualified__"
      let existing := (assocGet b.currentRefs key).getD []
      buildRefMap
        { b with currentRefs := assocSet b.currentRefs key (setAdd existing r.column) } rest

/-- The references contributed by JOIN ON conditions of the FROM list. -/
def joinOnRefs : List FromItem → List TableColRef
  | [] => []
  | .table tf :: rest =>
    (match tf.joinInfo with
     | some j => match j.onExpr with
       | some e => extractColumnRefs e
       | none => []
     | none => []) ++ joinOnRefs rest
  | .other _ :: rest => joinOnRefs rest

/-- `collectReferencedColumns`: scan SELECT list, JOIN ON, WHERE, GROUP BY and
ORDER BY, and rebuild `currentRefs`/`currentShowAll`. -/
def collectReferencedColumns (b : FlowGraphBuilder) (select : SelectStmt) :
    FlowGraphBuilder :=
  let b := { b with currentRefs := [], currentShowAll := false }
  if hasUnqualifiedStar (select.columns.getD []) then
    { b with currentShowAll := true }
  else
    let allRefs :=
      ((select.columns.getD []).flatMap fun col =>
        match col.expr with
        | some e => extractColumnRefs e
        | none => []) ++
      joinOnRefs (select.fromItems.getD []) ++
      (match select.whereClause with
       | some w => extractColumnRefs w
       | none => []) ++
      ((select.groupBy.getD []).flatMap extractColumnRefs) ++
      ((select.orderBy.getD []).flatMap fun o => extractColumnRefs o.byExpr)
    buildRefMap b allRefs

/-- `filterColumns`: keep the schema columns actually referenced. -/
def filterColumns (b : FlowGraphBuilder) (columns : List ColumnRef)
    (tableName : String) (aliasOpt : Option String) : List ColumnRef :=
  if b.currentShowAll then columns
  else
    let byAlias := match aliasOpt with
      | some a => assocGet b.currentRefs a
      | none => none
    let byName := assocGet b.currentRefs tableName
    let unqualified := assocGet b.currentRefs "__unqualified__"
    if (byAlias.getD []).contains "*" || (byName.getD []).contains "*" then columns
    else
      columns.filter fun col =>
        (byAlias.getD []).contains col.name ||
        (byName.getD []).contains col.name ||
        (unqualified.getD []).contains col.name

/-- `resolveSelectColumns` on one SELECT-list item. -/
def resolveSelectColumn (col : SelectColumn) : Option ColumnRef :=
  match col.expr with
  | some (.ref t n) =>
    some { name := col.aliasName.getD n,
           sourceTable := t,
           sourceColumn := if n = "*" then none else some n }
  | some e =>
    let refs := extractColumnRefs e
    some { name := col.aliasName.getD (exprToSql e),
           sourceTable := refs.head?.bind (·.table),
           sourceColumn := refs.head?.map (·.column) }
  | none => none

/-- `resolveSelectColumns`: the SELECT list resolved into column refs, in
order. -/
def resolveSelectColumns (select : SelectStmt) : List ColumnRef :=
  (select.columns.getD []).filterMap resolveSelectColumn

/-- The join-type string: strip `" JOIN"` and trim. -/
def stripJoinType (s : String) : String := (s.replace " JOIN" "").trim

/-- The CTE-check / table-source-creation part of one FROM entry: reuse the
registered CTE output node (registering alias and color), or create a fresh
`table-source` node with a newly allocated color index. -/
def fromEntryNode (b : FlowGraphBuilder) (tf : TableRef) : FlowGraphBuilder × String :=
  let tableName := tf.name
  let aliasOpt := tf.aliasName
  match assocGet b.cteRegistry tableName with
  | some cid =>
    let b :=
      match aliasOpt with
      | some a =>
        let b := { b with aliasRegistry := assocSet b.aliasRegistry a cid }
        match assocGet b.tableColorMap tableName with
        | some c => { b with tableColorMap := assocSet b.tableColorMap a c }
        | none => b
      | none => b
    (b, cid)
  | none =>
    let (b, tableId) := b.nextId "table"
    let columns := b.filterColumns (b.getSchemaColumns tableName) tableName aliasOpt
    let colorIndex := b.tableColorCounter
    let b := { b with tableColorCounter := b.tableColorCounter + 1,
                      tableColorMap := assocSet b.tableColorMap tableName colorIndex }
    let b :=
      match aliasOpt with
      | some a => { b with tableColorMap := assocSet b.tableColorMap a colorIndex }
      | none => b
    let (b, _) := b.addNode
      { id := tableId, data := .tableSource tableName aliasOpt columns colorIndex }
    let b := { b with aliasRegistry := assocSet b.aliasRegistry (aliasOpt.getD tableName) tableId }
    (b, tableId)

/-- `processFrom` body for one FROM entry, threading `(builder, lastNodeId)`:
resolve the entry's node, then wire a `join` node when the entry declares a
join and a previous chain exists. -/
def processFromItem (acc : FlowGraphBuilder × Option String) (item : FromItem) :
    FlowGraphBuilder × Option String :=
  match item with
  | .other _ => acc
  | .table tf =>
    let (b, lastNodeId) := acc
    let (b, currentNodeId) := fromEntryNode b tf
    match tf.joinInfo, lastNodeId with
    | some j, some last =>
      let (b, joinId) := b.nextId "join"
      let joinType := stripJoinType (j.joinType.getD "INNER JOIN")
      let condition :=
        match j.onExpr with
        | some e => exprToSql e
        | none => ""
      let conditionRefs :=
        match j.onExpr with
        | some e => (extractColumnRefs e).map (·.column)
        | none => []
      let (b, _) := b.addNode { id := joinId, data := .join joinType condition }
      let b := b.addEdge last joinId (some conditionRefs) (some true)
      let b := b.addEdge currentNodeId joinId (some conditionRefs) (some true)
      (b, some joinId)
    | _, _ => (b, some currentNodeId)

/-- `processFrom`: fold the FROM entries. -/
def processFrom (b : FlowGraphBuilder) (items : List FromItem) :
    FlowGraphBuilder × Option String :=
  items.foldl processFromItem (b, none)

/-- The recurring builder step `nextId` / `addNode` / optional `addEdge` from
the previous chain node: used for the WHERE filter node, the GROUP BY
aggregation node, the CTE result node and the output node. -/
def chainStep (b : FlowGraphBuilder) (lastO : Option String) (tag : String)
    (d : FlowNodeData) (cols : Option (List String)) (anim : Option Bool) :
    FlowGraphBuilder × String :=
  let (b, i) := b.nextId tag
  let (b, _) := b.addNode { id := i, data := d }
  let b :=
    match lastO with
    | some l => b.addEdge l i cols anim
    | none => b
  (b, i)

/-- Step 1 of `processSelectInner`: the FROM clause. -/
def fromStage (b : FlowGraphBuilder) (fi : Option (List FromItem)) :
    FlowGraphBuilder × Option String :=
  match fi with
  | some items => if items.length > 0 then b.processFrom items else (b, none)
  | none => (b, none)

/-- Step 2 of `processSelectInner`: WHERE becomes a `filter` node. -/
def whereStage (b : FlowGraphBuilder) (lastO : Option String) (w : Option Expr) :
    FlowGraphBuilder × Option String :=
  match w with
  | some w' =>
    let (b, filterId) := chainStep b lastO "filter" (.filter (exprToSql w')) none (some true)
    (b, some filterId)
  | none => (b, lastO)

/-- Step 3 of `processSelectInner`: a non-empty GROUP BY becomes an
`aggregation` node holding the rendered GROUP BY expressions and the
deduplicated aggregate-call strings of the SELECT list. -/
def groupByStage (b : FlowGraphBuilder) (lastO : Option String)
    (select : SelectStmt) : FlowGraphBuilder × Option String :=
  match select.groupBy with
  | some gb =>
    if gb.length > 0 then
      let groupCols := gb.map exprToSql
      let allAggregates :=
        (select.columns.getD []).flatMap fun col =>
          match col.expr with
          | some e => extractAggregates e
          | none => []
      let (b, aggId) := chainStep b lastO "agg"
        (.aggregation groupCols (allAggregates.foldl setAdd [])) none (some true)
      (b, some aggId)
    else (b, lastO)
  | none => (b, lastO)

/-- `processSelectInner`: FROM, WHERE, GROUP BY; returns the last node id. -/
def processSelectInner (b : FlowGraphBuilder) (select : SelectStmt) :
    FlowGraphBuilder × Option String :=
  let b := b.collectReferencedColumns select
  let (b, lastNodeId) := fromStage b select.fromItems
  let (b, lastNodeId) := whereStage b lastNodeId select.whereClause
  groupByStage b lastNodeId select

/-- `processCTE`: group node, tagged body, cte result node, registration. -/
def processCTE (b : FlowGraphBuilder) (name : String) (select : SelectStmt) :
    FlowGraphBuilder :=
  let colorIndex := b.tableColorCounter
  let b := { b with tableColorCounter := b.tableColorCounter + 1,
                    tableColorMap := assocSet b.tableColorMap name colorIndex }
  let (b, groupId) := b.nextId "cte_group"
  let (b, _) := b.addNode { id := groupId, data := .cteGroup name colorIndex }
  let b := { b with currentCteGroupId := some groupId }
  let (b, innerLastNodeId) := b.processSelectInner select
  let outputCols := resolveSelectColumns select
  let (b, cteId) := chainStep b innerLastNodeId "cte"
    (.cte name outputCols select.whereClause.isSome
      (match select.groupBy with
       | some gb => gb.length > 0
       | none => false) colorIndex) none (some true)
  let b := { b with currentCteGroupId := none }
  { b with cteRegistry := assocSet b.cteRegistry name cteId }

/-- `processSelect`: the main query, finished with the `output` node. -/
def processSelect (b : FlowGraphBuilder) (select : SelectStmt) : FlowGraphBuilder :=
  let (b, lastNodeId) := b.processSelectInner select
  let outputCols := resolveSelectColumns select
  let orderBy :=
    match select.orderBy with
    | some os => some (String.intercalate ", " (os.map fun o => exprToSql o.byExpr))
    | none => none
  let limit :=
    match select.limit with
    | some (.intLit v) => some v
    | _ => none
  let (b, _) := chainStep b lastNodeId "output"
    (.output outputCols orderBy limit b.tableColorMap)
    (some (outputCols.map (·.name))) (some true)
  b

/-- `build`: the accumulated graph. -/
def build (b : FlowGraphBuilder) : FlowGraph := { nodes := b.nodes, edges := b.edges }

end FlowGraphBuilder

/-- The result of `sqlToFlowGraph`: a graph or an `{error}` object. -/
inductive BuildResult where
  | graph (g : FlowGraph)
  | error (msg : String)
  deriving Repr, DecidableEq

/-- The WITH-clause loop of `sqlToFlowGraph`: process each binding whose
statement is a `select`, in order; skip the others. -/
def processBinds (b : FlowGraphBuilder) : List (String × Stmt) → FlowGraphBuilder
  | [] => b
  | (name, stmt) :: rest =>
    match stmt with
    | .select s => processBinds (b.processCTE name s) rest
    | _ => processBinds b rest

/-- The statement dispatch of `sqlToFlowGraph` (after a successful parse). -/
def runStatement (ast : Stmt) (schema : List SchemaTable) : BuildResult :=
  let b := FlowGraphBuilder.init schema
  match ast with
  | .withStmt binds inner =>
    let b := processBinds b binds
    let b :=
      match inner with
      | .select s => b.processSelect s
      | _ => b
    .graph b.build
  | .select s => .graph (b.processSelect s).build
  | .other _ => .error "Only SELECT queries can be visualized."

/-- `sqlToFlowGraph`: the external parser is modelled by the
`Except String Stmt` argument (`Except.error` = `parseFirst` threw); its
exception is caught and re-shaped into a `Parse error:` result. -/
def sqlToFlowGraph (parseResult : Except String Stmt) (schema : List SchemaTable) :
    BuildResult :=
  match parseResult with
  | .error msg => .error ("Parse error: " ++ msg)
  | .ok ast => runStatement ast schema

/-! ### The column-lineage tracer (`column-lineage` part of the source) -/

/-- One resolved lineage source `{table, column}`. -/
structure TableColumn where
  table : String
  column : String
  deriving Repr, DecidableEq

/-- One lineage entry per output column. -/
structure LineageEntry where
  outputColumn : String
  sources : List TableColumn
  deriving Repr, DecidableEq

/-- `new Map(graph.nodes.map(n => [n.id, n]))`. -/
def mkNodeMap (nodes : List FlowNode) : List (String × FlowNode) :=
  nodes.foldl (fun m n => assocSet m n.id n) []

/-- Reverse adjacency: target id to the list of source ids, in edge order. -/
def mkIncoming (edges : List FlowEdge) : List (String × List String) :=
  edges.foldl
    (fun m e => assocSet m e.target ((assocGet m e.target).getD [] ++ [e.source])) []

/-- First `table-source` node (in map iteration order) whose table name or
alias equals `st`; returns its real table name. -/
def findTableSourceName : List (String × FlowNode) → String → Option String
  | [], _ => none
  | (_, n) :: rest, st =>
    match n.data with
    | .tableSource tn al _ _ =>
      if tn = st || al = some st then some tn else findTableSourceName rest st
    | _ => findTableSourceName rest st

/-- First `cte` node whose name equals `st`: its id and output columns. -/
def findCteByName : List (String × FlowNode) → String → Option (String × List ColumnRef)
  | [], _ => none
  | (_, n) :: rest, st =>
    match n.data with
    | .cte cn outputColumns _ _ _ =>
      if cn = st then some (n.id, outputColumns) else findCteByName rest st
    | _ => findCteByName rest st

/-- The backward walk over the incoming edges of the current node: at each
predecessor, a `table-source` with a matching column terminates the trace;
otherwise recurse (through `rec`) and keep the first non-empty result. -/
def traceParents (recur : ColumnRef → String → Option (List TableColumn))
    (nodeMap : List (String × FlowNode)) (col : ColumnRef) :
    List String → Option (List TableColumn)
  | [] => some []
  | pid :: rest =>
    match assocGet nodeMap pid with
    | none => traceParents recur nodeMap col rest
    | some pn =>
      let direct : Option TableColumn :=
        match pn.data with
        | .tableSource tn _ cols _ =>
          match cols.find? (fun c => c.name = col.name || some c.name = col.sourceColumn) with
          | some mc => some ⟨tn, mc.name⟩
          | none => none
        | _ => none
      match direct with
      | some tc => some [tc]
      | none =>
        match recur col pid with
        | none => none
        | some r => if r.isEmpty then traceParents recur nodeMap col rest else some r

/-- One activation of `traceColumn`, with `rec` standing for the recursive
calls. -/
def traceStep (recur : ColumnRef → String → Option (List TableColumn))
    (nodeMap : List (String × FlowNode)) (incomingEdges : List (String × List String))
    (col : ColumnRef) (currentNodeId : String) : Option (List TableColumn) :=
  let parents := (assocGet incomingEdges currentNodeId).getD []
  match col.sourceTable, col.sourceColumn with
  | some st, some sc =>
    match findTableSourceName nodeMap st with
    | some tn => some [⟨tn, sc⟩]
    | none =>
      match findCteByName nodeMap st with
      | some (cteId, outputColumns) =>
        match outputColumns.find? (fun c => c.name = sc) with
        | some cteCol =>
          if cteCol.sourceTable.isSome && cteCol.sourceColumn.isSome then recur cteCol cteId
          else some [⟨st, sc⟩]
        | none => some [⟨st, sc⟩]
      | none => traceParents recur nodeMap col parents
  | _, _ => traceParents recur nodeMap col parents

/-- `traceColumn`, with fuel: `none` means the fuel ran out before the
unboundedly recursive source function returned. -/
def traceColumnF (nodeMap : List (String × FlowNode))
    (incomingEdges : List (String × List String)) :
    Nat → ColumnRef → String → Option (List TableColumn)
  | 0, _, _ => none
  | fuel + 1, col, currentNodeId =>
    traceStep (traceColumnF nodeMap incomingEdges fuel) nodeMap incomingEdges col
      currentNodeId

/-- The per-output-column loop of `computeColumnLineage`. -/
def collectLineage (f : ColumnRef → Option (List TableColumn)) :
    List ColumnRef → Option (List LineageEntry)
  | [] => some []
  | c :: cs =>
    match f c with
    | none => none
    | some srcs =>
      match collectLineage f cs with
      | none => none
      | some rest => some (⟨c.name, srcs⟩ :: rest)

/-- `computeColumnLineage`, with fuel for the backward search. -/
def computeColumnLineageF (fuel : Nat) (graph : FlowGraph) :
    Option (List LineageEntry) :=
  let nodeMap := mkNodeMap graph.nodes
  let incomingEdges := mkIncoming graph.edges
  match graph.nodes.find? (fun n => isOutput n.data) with
  | none => some []
  | some outputNode =>
    match outputNode.data with
    | .output cols _ _ _ =>
      collectLineage (fun col => traceColumnF nodeMap incomingEdges fuel col outputNode.id) cols
    | _ => some []

/-- The source `computeColumnLineage` terminates on `graph` iff some finite
fuel suffices. -/
def lineageTerminates (graph : FlowGraph) : Prop :=
  ∃ fuel, (computeColumnLineageF fuel graph).isSome

/-! ### The layout engine's edge partition (`layout.ts`, `computeLayout`) -/

/-- The shape of an ELK edge built by `computeLayout`. -/
structure ElkEdge where
  id : String
  sources : List String
  targets : List String
  deriving Repr, DecidableEq

/-- The FlowEdge-to-ElkEdge translation of `computeLayout`. -/
def elkOfEdge (e : FlowEdge) : ElkEdge := ⟨e.id, [e.source], [e.target]⟩

/-- `parentMap`: node id to `parentCteId`, for nodes that have one. -/
def layoutParentMap (nodes : List FlowNode) : List (String × String) :=
  nodes.foldl
    (fun m n =>
      match n.parentCteId with
      | some p => assocSet m n.id p
      | none => m) []

/-- The ids of the `cte-group` nodes. -/
def layoutGroupIds (nodes : List FlowNode) : List String :=
  (nodes.filter (fun n => isCteGroup n.data)).map (·.id)

/-- The per-group edge buckets, initialized empty for every group id. -/
def initGroupEdges (groupIds : List String) : List (String × List ElkEdge) :=
  groupIds.foldl (fun m g => assocSet m g []) []

/-- One step of the edge-partition loop of `computeLayout`. -/
def partitionStep (parentMap : List (String × String)) (groupIds : List String)
    (acc : List (String × List ElkEdge) × List ElkEdge) (edge : FlowEdge) :
    List (String × List ElkEdge) × List ElkEdge :=
  let (groupEdges, rootEdges) := acc
  let sourceParent := assocGet parentMap edge.source
  let targetParent := assocGet parentMap edge.target
  let elkEdge := elkOfEdge edge
  match sourceParent with
  | some sp =>
    if targetParent = some sp && groupIds.contains sp then
      (assocSet groupEdges sp ((assocGet groupEdges sp).getD [] ++ [elkEdge]), rootEdges)
    else (groupEdges, rootEdges ++ [elkEdge])
  | none => (groupEdges, rootEdges ++ [elkEdge])

/-- The edge partition of `computeLayout`: per-`cte-group` internal edge lists
and the root-level edge list. -/
def partitionEdges (graph : FlowGraph) :
    List (String × List ElkEdge) × List ElkEdge :=
  let parentMap := layoutParentMap graph.nodes
  let groupIds := layoutGroupIds graph.nodes
  graph.edges.foldl (partitionStep parentMap groupIds) (initGroupEdges groupIds, [])

/-- Is the edge internal to the group `gid`? (Both endpoints mapped to `gid`
by the parent map, and `gid` is a known group id.) -/
def edgeInternalTo (parentMap : List (String × String)) (groupIds : List String)
    (gid : String) (e : FlowEdge) : Bool :=
  assocGet parentMap e.source = some gid && assocGet parentMap e.target = some gid &&
    groupIds.contains gid

/-- Is the edge internal to some group? -/
def edgeInternal (parentMap : List (String × String)) (groupIds : List String)
    (e : FlowEdge) : Bool :=
  match assocGet parentMap e.source with
  | some sp => assocGet parentMap e.target = some sp && groupIds.contains sp
  | none => false


/-! ### Concrete inputs and graphs used to instantiate the theorems -/

/-- `SELECT a.x FROM t AS a`. -/
def astLineage : Stmt := .select {
  columns := some [{ expr := some (.ref (some "a") "x"), aliasName := none }],
  fromItems := some [.table { name := "t", aliasName := some "a", joinInfo := none }],
  whereClause := none, groupBy := none, orderBy := none, limit := none }

/-- The graph built from `astLineage` under a given schema. -/
def graphLineage (schema : List SchemaTable) : FlowGraph :=
  match sqlToFlowGraph (.ok astLineage) schema with
  | .graph g => g
  | .error _ => ⟨[], []⟩

/-- `WITH c AS (SELECT 1) INSERT ...` — a WITH statement whose inner statement
is not a select. -/
def astWithInsert : Stmt := .withStmt
  [("c", .select { columns := some [{ expr := some (.intLit 1), aliasName := none }],
                   fromItems := none, whereClause := none, groupBy := none,
                   orderBy := none, limit := none })]
  (.other "insert")

def graphWithInsert : FlowGraph :=
  match sqlToFlowGraph (.ok astWithInsert) [] with
  | .graph g => g
  | .error _ => ⟨[], []⟩

/-- `WITH c AS (SELECT 1 AS x) SELECT 1`. -/
def astWithTrivial : Stmt := .withStmt
  [("c", .select { columns := some [{ expr := some (.intLit 1), aliasName := some "x" }],
                   fromItems := none, whereClause := none, groupBy := none,
                   orderBy := none, limit := none })]
  (.select { columns := some [{ expr := some (.intLit 1), aliasName := none }],
             fromItems := none, whereClause := none, groupBy := none,
             orderBy := none, limit := none })

def graphWithTrivial : FlowGraph :=
  match sqlToFlowGraph (.ok astWithTrivial) [] with
  | .graph g => g
  | .error _ => ⟨[], []⟩

/-- `SELECT x FROM t, t AS b` — the same table in two FROM entries. -/
def astSelfJoin : Stmt := .select {
  columns := some [{ expr := some (.ref none "x"), aliasName := none }],
  fromItems := some [.table { name := "t", aliasName := none, joinInfo := none },
                     .table { name := "t", aliasName := some "b", joinInfo := none }],
  whereClause := none, groupBy := none, orderBy := none, limit := none }

def graphSelfJoin : FlowGraph :=
  match sqlToFlowGraph (.ok astSelfJoin) [] with
  | .graph g => g
  | .error _ => ⟨[], []⟩

/-- `WITH t AS (SELECT t.s FROM a) SELECT t.s FROM t` — the CTE output column
names the CTE itself as its source, and no table-source is named `t`. -/
def astCteLoop : Stmt := .withStmt
  [("t", .select { columns := some [{ expr := some (.ref (some "t") "s"), aliasName := none }],
                   fromItems := some [.table { name := "a", aliasName := none, joinInfo := none }],
                   whereClause := none, groupBy := none, orderBy := none, limit := none })]
  (.select { columns := some [{ expr := some (.ref (some "t") "s"), aliasName := none }],
             fromItems := some [.table { name := "t", aliasName := none, joinInfo := none }],
             whereClause := none, groupBy := none, orderBy := none, limit := none })

def graphCteLoop : FlowGraph :=
  match sqlToFlowGraph (.ok astCteLoop) [] with
  | .graph g => g
  | .error _ => ⟨[], []⟩

/-- A small graph with one CTE group, two tagged members, one internal edge
and one cross-group edge, for the layout partition. -/
def layoutDemoGraph : FlowGraph := {
  nodes := [ { id := "g1", data := .cteGroup "c" 0 },
             { id := "a", data := .filter "f", parentCteId := some "g1" },
             { id := "b", data := .cte "c" [] false false 0, parentCteId := some "g1" },
             { id := "c", data := .output [] none none [] } ],
  edges := [ { id := "e1", source := "a", target := "b" },
             { id := "e2", source := "b", target := "c" } ] }

/-! ## Lemmas about the decimal id encoding -/

theorem digitChar_isDigit {d : Nat} (h : d < 10) : (digitChar d).isDigit = true := by
  interval_cases d <;> decide

theorem digitChar_ne_underscore {d : Nat} (h : d < 10) : digitChar d ≠ '_' := by
  interval_cases d <;> decide

theorem digitVal_digitChar {d : Nat} (h : d < 10) : digitVal (digitChar d) = d := by
  interval_cases d <;> decide

theorem natChars_all_digits : ∀ fuel n, ∀ c ∈ natChars fuel n, c.isDigit = true := by
  intro fuel
  induction fuel with
  | zero =>
    intro n c hc
    simp only [natChars, List.mem_singleton] at hc
    subst hc
    exact digitChar_isDigit (Nat.mod_lt _ (by omega))
  | succ f ih =>
    intro n c hc
    simp only [natChars] at hc
    by_cases h : n < 10
    · rw [if_pos h] at hc
      simp only [List.mem_singleton] at hc
      subst hc
      exact digitChar_isDigit h
    · rw [if_neg h] at hc
      rcases List.mem_append.1 hc with h1 | h2
      · exact ih _ _ h1
      · simp only [List.mem_singleton] at h2
        subst h2
        exact digitChar_isDigit (Nat.mod_lt _ (by omega))

theorem parse_natChars : ∀ fuel n, n ≤ fuel →
    ∀ a, (natChars fuel n).foldl (fun a c => a * 10 + digitVal c) a =
      a * 10 ^ (natChars fuel n).length + n := by
  intro fuel
  induction fuel with
  | zero =>
    intro n hn a
    interval_cases n
    simp [natChars, digitVal_digitChar]
  | succ f ih =>
    intro n hn a
    simp only [natChars]
    by_cases h : n < 10
    · rw [if_pos h]
      simp [digitVal_digitChar h]
    · rw [if_neg h]
      have hdiv : n / 10 ≤ f := by
        have := Nat.div_lt_self (by omega : 0 < n) (by omega : 1 < 10)
        omega
      rw [List.foldl_append, List.length_append]
      rw [ih _ hdiv a]
      simp only [List.foldl_cons, List.foldl_nil, List.length_cons, List.length_nil]
      rw [digitVal_digitChar (Nat.mod_lt _ (by omega))]
      rw [pow_succ]
      have := Nat.div_add_mod n 10
      ring_nf
      omega

theorem parseDigits_natStr (n : Nat) : parseDigits (natStr n).data = n := by
  have h := parse_natChars n n le_rfl 0
  simpa [parseDigits, natStr] using h

theorem natStr_all_digits (n : Nat) : ∀ c ∈ (natStr n).data, c.isDigit = true :=
  natChars_all_digits n n

theorem digitSuffix_mkId (tag : String) (k : Nat) :
    digitSuffix (mkId tag k) = (natStr k).data := by
  have hdata : (mkId tag k).data = tag.data ++ ('_' :: (natStr k).data) := by
    simp [mkId, String.data_append]
  have hdig := natStr_all_digits k
  simp only [digitSuffix, hdata, List.reverse_append, List.reverse_cons]
  rw [List.append_assoc]
  rw [List.takeWhile_append_of_pos (by
    intro c hc
    exact hdig c (List.mem_reverse.1 hc))]
  have : List.takeWhile Char.isDigit ('_' :: tag.data.reverse) = [] := by
    simp [List.takeWhile_cons]
  simp [this]

theorem idNum_mkId (tag : String) (k : Nat) : idNum (mkId tag k) = k := by
  rw [idNum, digitSuffix_mkId, parseDigits_natStr]


/-! ## Builder invariants

`Inv` collects the structural invariants maintained by every
`FlowGraphBuilder` operation: node-id counters are strictly increasing along
the node list and below the counter, edges point between existing non-group
nodes and respect creation order, the CTE registry holds ids of `cte` nodes,
the active group id and all `parentCteId` tags name existing `cte-group`
nodes, and `table-source` color indices are strictly increasing and below the
color counter. -/

/-- `x` is the id of some non-`cte-group` node of `nodes`. -/
def endpointOk (nodes : List FlowNode) (x : String) : Prop :=
  ∃ n, n ∈ nodes ∧ n.id = x ∧ isCteGroup n.data = false

/-- `g` is the id of some `cte-group` node of `nodes`. -/
def groupIdOk (nodes : List FlowNode) (g : String) : Prop :=
  ∃ n, n ∈ nodes ∧ n.id = g ∧ isCteGroup n.data = true

structure Inv (b : FlowGraphBuilder) : Prop where
  idLt : ∀ n ∈ b.nodes, idNum n.id < b.nodeCounter
  idMono : (b.nodes.map fun n => idNum n.id).Pairwise (· < ·)
  edgeSrc : ∀ e ∈ b.edges, endpointOk b.nodes e.source
  edgeTgt : ∀ e ∈ b.edges, endpointOk b.nodes e.target
  edgeLt : ∀ e ∈ b.edges, idNum e.source < idNum e.target
  cteReg : ∀ p ∈ b.cteRegistry, ∃ n, n ∈ b.nodes ∧ n.id = p.2 ∧ isCte n.data = true
  groupOk : ∀ g, b.currentCteGroupId = some g → groupIdOk b.nodes g
  parentOk : ∀ n ∈ b.nodes, ∀ p, n.parentCteId = some p → groupIdOk b.nodes p
  colMono : (b.nodes.filterMap fun n => tsColor n.data).Pairwise (· < ·)
  colLt : ∀ c ∈ b.nodes.filterMap fun n => tsColor n.data, c < b.tableColorCounter

theorem endpointOk_append {nodes : List FlowNode} {x : String}
    (h : endpointOk nodes x) (ms : List FlowNode) : endpointOk (nodes ++ ms) x := by
  obtain ⟨n, hn, hid, hg⟩ := h
  exact ⟨n, List.mem_append_left _ hn, hid, hg⟩

theorem groupIdOk_append {nodes : List FlowNode} {g : String}
    (h : groupIdOk nodes g) (ms : List FlowNode) : groupIdOk (nodes ++ ms) g := by
  obtain ⟨n, hn, hid, hg⟩ := h
  exact ⟨n, List.mem_append_left _ hn, hid, hg⟩

theorem isCte_not_group {d : FlowNodeData} (h : isCte d = true) :
    isCteGroup d = false := by
  cases d <;> simp_all [isCte, isCteGroup]

theorem assocGet_mem {α : Type} {m : List (String × α)} {k : String} {v : α}
    (h : assocGet m k = some v) : (k, v) ∈ m := by
  induction m with
  | nil => simp [assocGet] at h
  | cons p rest ih =>
    rw [assocGet] at h
    split at h
    · rename_i heq
      cases p
      simp_all
    · exact List.mem_cons_of_mem _ (ih h)

theorem assocSet_mem {α : Type} {m : List (String × α)} {k : String} {v : α}
    {p : String × α} (h : p ∈ assocSet m k v) : p = (k, v) ∨ p ∈ m := by
  induction m with
  | nil => simp [assocSet] at h; simp [h]
  | cons q rest ih =>
    rw [assocSet] at h
    split at h
    · rcases List.mem_cons.1 h with h1 | h2
      · exact Or.inl h1
      · exact Or.inr (List.mem_cons_of_mem _ h2)
    · rcases List.mem_cons.1 h with h1 | h2
      · exact Or.inr (h1 ▸ List.mem_cons_self _ _)
      · rcases ih h2 with h3 | h3
        · exact Or.inl h3
        · exact Or.inr (List.mem_cons_of_mem _ h3)

theorem pairwise_map_append_one {ns : List FlowNode} {node : FlowNode}
    {f : FlowNode → Nat} (h : (ns.map f).Pairwise (· < ·))
    (hb : ∀ n ∈ ns, f n < f node) :
    ((ns ++ [node]).map f).Pairwise (· < ·) := by
  rw [List.map_append, List.pairwise_append]
  refine ⟨h, by simp, ?_⟩
  intro a ha b hb'
  simp only [List.map_cons, List.map_nil, List.mem_singleton] at hb'
  obtain ⟨n, hn, rfl⟩ := List.mem_map.1 ha
  subst hb'
  exact hb n hn

theorem pairwise_filterMap_append_one {ns : List FlowNode} {node : FlowNode}
    {f : FlowNode → Option Nat} (h : (ns.filterMap f).Pairwise (· < ·))
    (hb : ∀ c ∈ ns.filterMap f, ∀ c', f node = some c' → c < c') :
    ((ns ++ [node]).filterMap f).Pairwise (· < ·) := by
  rw [List.filterMap_append]
  cases hf : f node with
  | none => simpa [List.filterMap, hf] using h
  | some c' =>
    have : List.filterMap f [node] = [c'] := by simp [List.filterMap, hf]
    rw [this, List.pairwise_append]
    refine ⟨h, by simp, ?_⟩
    intro a ha b hb'
    simp only [List.mem_singleton] at hb'
    rw [hb']
    exact hb a ha c' hf

/-- Invariance under updates that leave all `Inv`-relevant fields alone
(including moving the active group id to an id that is still a group). -/
theorem inv_of_fields_eq {b b' : FlowGraphBuilder} (hInv : Inv b)
    (h1 : b'.nodes = b.nodes) (h2 : b'.edges = b.edges)
    (h3 : b'.nodeCounter = b.nodeCounter) (h4 : b'.cteRegistry = b.cteRegistry)
    (h5 : ∀ g, b'.currentCteGroupId = some g → groupIdOk b.nodes g)
    (h6 : b.tableColorCounter ≤ b'.tableColorCounter) : Inv b' := by
  refine ⟨?_, ?_, ?_, ?_, ?_, ?_, ?_, ?_, ?_, ?_⟩
  · rw [h1, h3]; exact hInv.idLt
  · rw [h1]; exact hInv.idMono
  · rw [h1, h2]; exact hInv.edgeSrc
  · rw [h1, h2]; exact hInv.edgeTgt
  · rw [h2]; exact hInv.edgeLt
  · rw [h1, h4]; exact hInv.cteReg
  · intro g hg; rw [h1]; exact h5 g hg
  · rw [h1]; exact hInv.parentOk
  · rw [h1]; exact hInv.colMono
  · rw [h1]
    intro c hc
    exact lt_of_lt_of_le (hInv.colLt c hc) h6

/-- Invariance under appending one freshly numbered node. -/
theorem inv_add_fresh_node {b b' : FlowGraphBuilder} (hInv : Inv b)
    {node : FlowNode} {tag : String}
    (hnodes : b'.nodes = b.nodes ++ [node])
    (hedges : b'.edges = b.edges)
    (hid : node.id = mkId tag b.nodeCounter)
    (hcounter : b'.nodeCounter = b.nodeCounter + 1)
    (hparent : node.parentCteId = none ∨ node.parentCteId = b.currentCteGroupId)
    (hreg : b'.cteRegistry = b.cteRegistry)
    (hgroup : b'.currentCteGroupId = b.currentCteGroupId)
    (hcolor : (tsColor node.data = none ∧ b.tableColorCounter ≤ b'.tableColorCounter) ∨
        (tsColor node.data = some b.tableColorCounter ∧
          b'.tableColorCounter = b.tableColorCounter + 1)) :
    Inv b' := by
  have hidnum : idNum node.id = b.nodeCounter := by rw [hid, idNum_mkId]
  refine ⟨?_, ?_, ?_, ?_, ?_, ?_, ?_, ?_, ?_, ?_⟩
  · rw [hnodes, hcounter]
    intro n hn
    rcases List.mem_append.1 hn with h | h
    · exact Nat.lt_succ_of_lt (hInv.idLt n h)
    · simp only [List.mem_singleton] at h
      subst h
      omega
  · rw [hnodes]
    exact pairwise_map_append_one hInv.idMono
      (fun n hn => by rw [hidnum]; exact hInv.idLt n hn)
  · rw [hnodes, hedges]
    intro e he
    exact endpointOk_append (hInv.edgeSrc e he) _
  · rw [hnodes, hedges]
    intro e he
    exact endpointOk_append (hInv.edgeTgt e he) _
  · rw [hedges]; exact hInv.edgeLt
  · rw [hnodes, hreg]
    intro p hp
    obtain ⟨n, hn, hid', hc⟩ := hInv.cteReg p hp
    exact ⟨n, List.mem_append_left _ hn, hid', hc⟩
  · intro g hg
    rw [hnodes]
    exact groupIdOk_append (hInv.groupOk g (hgroup ▸ hg)) _
  · rw [hnodes]
    intro n hn p hp
    rcases List.mem_append.1 hn with h | h
    · exact groupIdOk_append (hInv.parentOk n h p hp) _
    · simp only [List.mem_singleton] at h
      subst h
      rcases hparent with h | h
      · rw [h] at hp; cases hp
      · rw [h] at hp
        exact groupIdOk_append (hInv.groupOk p hp) _
  · rw [hnodes]
    refine pairwise_filterMap_append_one hInv.colMono ?_
    intro c hc c' hc'
    rcases hcolor with ⟨hn, _⟩ | ⟨hn, _⟩
    · rw [hn] at hc'; cases hc'
    · rw [hn] at hc'
      cases hc'
      exact hInv.colLt c hc
  · rw [hnodes, List.filterMap_append]
    intro c hc
    rcases List.mem_append.1 hc with h | h
    · rcases hcolor with ⟨_, hle⟩ | ⟨_, heq⟩
      · exact lt_of_lt_of_le (hInv.colLt c h) hle
      · rw [heq]
        exact Nat.lt_succ_of_lt (hInv.colLt c h)
    · rcases hcolor with ⟨hn, _⟩ | ⟨hn, heq⟩
      · simp [List.filterMap, hn] at h
      · simp only [List.filterMap, hn, List.mem_singleton] at h
        subst h
        omega

/-- Invariance under `addEdge` between existing non-group nodes respecting
creation order. -/
theorem inv_addEdge {b : FlowGraphBuilder} (hInv : Inv b) {src tgt : String}
    {cols : Option (List String)} {anim : Option Bool}
    (hsrc : endpointOk b.nodes src) (htgt : endpointOk b.nodes tgt)
    (hlt : idNum src < idNum tgt) : Inv (b.addEdge src tgt cols anim) := by
  refine ⟨hInv.idLt, hInv.idMono, ?_, ?_, ?_, hInv.cteReg, hInv.groupOk,
    hInv.parentOk, hInv.colMono, hInv.colLt⟩
  · intro e he
    rcases List.mem_append.1 he with h | h
    · exact hInv.edgeSrc e h
    · simp only [List.mem_singleton] at h
      subst h
      exact hsrc
  · intro e he
    rcases List.mem_append.1 he with h | h
    · exact hInv.edgeTgt e h
    · simp only [List.mem_singleton] at h
      subst h
      exact htgt
  · intro e he
    rcases List.mem_append.1 he with h | h
    · exact hInv.edgeLt e h
    · simp only [List.mem_singleton] at h
      subst h
      exact hlt


/-- What one builder step (inside one SELECT) does to the state: it only
appends nodes (all tagged with the active group and non-group), keeps the
active group and the CTE registry, and grows the counter. -/
structure StepOk (b b' : FlowGraphBuilder) : Prop where
  group : b'.currentCteGroupId = b.currentCteGroupId
  reg : b'.cteRegistry = b.cteRegistry
  counterLe : b.nodeCounter ≤ b'.nodeCounter
  nodesExt : ∃ new, b'.nodes = b.nodes ++ new ∧
    ∀ n ∈ new, n.parentCteId = b.currentCteGroupId ∧ isCteGroup n.data = false

theorem stepOk_refl (b : FlowGraphBuilder) : StepOk b b :=
  ⟨rfl, rfl, le_refl _, [], by simp, by simp⟩

theorem StepOk.trans {b b' b'' : FlowGraphBuilder} (h1 : StepOk b b')
    (h2 : StepOk b' b'') : StepOk b b'' := by
  obtain ⟨new1, hn1, ht1⟩ := h1.nodesExt
  obtain ⟨new2, hn2, ht2⟩ := h2.nodesExt
  refine ⟨h2.group.trans h1.group, h2.reg.trans h1.reg,
    le_trans h1.counterLe h2.counterLe, new1 ++ new2, ?_, ?_⟩
  · rw [hn2, hn1, List.append_assoc]
  · intro n hn
    rcases List.mem_append.1 hn with h | h
    · exact ht1 n h
    · have := ht2 n h
      rw [h1.group] at this
      exact this

/-- The last-node-id handed between builder steps is the id of an existing
non-group node. -/
def LastOk (b : FlowGraphBuilder) (o : Option String) : Prop :=
  ∀ l, o = some l → endpointOk b.nodes l

theorem LastOk.none (b : FlowGraphBuilder) : LastOk b none := by
  intro l h; cases h

theorem LastOk.mono {b b' : FlowGraphBuilder} {o : Option String} (h : LastOk b o)
    (hstep : StepOk b b') : LastOk b' o := by
  intro l hl
  obtain ⟨new, hn, _⟩ := hstep.nodesExt
  rw [hn]
  exact endpointOk_append (h l hl) _

theorem endpointOk_idNum_lt {b : FlowGraphBuilder} (hInv : Inv b) {x : String}
    (h : endpointOk b.nodes x) : idNum x < b.nodeCounter := by
  obtain ⟨n, hn, hid, _⟩ := h
  rw [← hid]
  exact hInv.idLt n hn

/-- `buildRefMap` only rewrites `currentRefs`/`currentShowAll`. -/
theorem buildRefMap_shape : ∀ (l : List TableColRef) (b : FlowGraphBuilder),
    ∃ r sa, FlowGraphBuilder.buildRefMap b l =
      { b with currentRefs := r, currentShowAll := sa } := by
  intro l
  induction l with
  | nil => intro b; exact ⟨b.currentRefs, b.currentShowAll, rfl⟩
  | cons r rest ih =>
    intro b
    rw [FlowGraphBuilder.buildRefMap]
    by_cases hc : r.column = "*"
    · rw [if_pos hc]
      cases ht : r.table with
      | none => exact ⟨b.currentRefs, true, rfl⟩
      | some t => exact ih _
    · rw [if_neg hc]
      exact ih _

/-- `collectReferencedColumns` only rewrites `currentRefs`/`currentShowAll`. -/
theorem collectReferencedColumns_shape (b : FlowGraphBuilder) (s : SelectStmt) :
    ∃ r sa, b.collectReferencedColumns s =
      { b with currentRefs := r, currentShowAll := sa } := by
  rw [FlowGraphBuilder.collectReferencedColumns]
  by_cases hstar : FlowGraphBuilder.hasUnqualifiedStar (s.columns.getD []) = true
  · rw [if_pos hstar]
    exact ⟨[], true, rfl⟩
  · rw [if_neg hstar]
    exact buildRefMap_shape _ _

theorem inv_collectReferencedColumns {b : FlowGraphBuilder} (hInv : Inv b)
    (s : SelectStmt) :
    Inv (b.collectReferencedColumns s) ∧ StepOk b (b.collectReferencedColumns s) := by
  obtain ⟨r, sa, h⟩ := collectReferencedColumns_shape b s
  rw [h]
  constructor
  · exact inv_of_fields_eq hInv rfl rfl rfl rfl (fun g hg => hInv.groupOk g hg) le_rfl
  · exact ⟨rfl, rfl, le_refl _, [], by simp, by simp⟩

/-- `addNode` on a non-group node with an untagged literal: append the node
tagged with the active group. -/
theorem addNode_nongroup (b : FlowGraphBuilder) (node : FlowNode)
    (hng : isCteGroup node.data = false) (hp : node.parentCteId = none) :
    b.addNode node =
      ({ b with nodes :=
          b.nodes ++ [{ node with parentCteId := b.currentCteGroupId }] },
        node.id) := by
  rw [FlowGraphBuilder.addNode]
  cases hg : b.currentCteGroupId with
  | none =>
    cases node with
    | mk i d p =>
      simp only at hp
      subst hp
      rfl
  | some g => simp only [hng]; rfl

/-- `addNode` on a `cte-group` node: append it untouched. -/
theorem addNode_group (b : FlowGraphBuilder) (node : FlowNode)
    (hg : isCteGroup node.data = true) :
    b.addNode node = ({ b with nodes := b.nodes ++ [node] }, node.id) := by
  rw [FlowGraphBuilder.addNode]
  cases b.currentCteGroupId with
  | none => rfl
  | some g => simp only [hg]; rfl

theorem inv_init (schema : List SchemaTable) : Inv (FlowGraphBuilder.init schema) := by
  refine ⟨?_, ?_, ?_, ?_, ?_, ?_, ?_, ?_, ?_, ?_⟩ <;>
    simp [FlowGraphBuilder.init]


/-- Specializations of `addNode_nongroup` to each non-group payload. -/
theorem addNode_tableSource (b : FlowGraphBuilder) (i : String) (tn : String)
    (al : Option String) (cols : List ColumnRef) (ci : Nat) :
    b.addNode { id := i, data := .tableSource tn al cols ci } =
      ({ b with nodes := b.nodes ++
          [{ id := i, data := .tableSource tn al cols ci,
             parentCteId := b.currentCteGroupId }] }, i) :=
  addNode_nongroup _ _ rfl rfl

theorem addNode_join (b : FlowGraphBuilder) (i jt cond : String) :
    b.addNode { id := i, data := .join jt cond } =
      ({ b with nodes := b.nodes ++
          [{ id := i, data := .join jt cond,
             parentCteId := b.currentCteGroupId }] }, i) :=
  addNode_nongroup _ _ rfl rfl

theorem addNode_filter (b : FlowGraphBuilder) (i cond : String) :
    b.addNode { id := i, data := .filter cond } =
      ({ b with nodes := b.nodes ++
          [{ id := i, data := .filter cond,
             parentCteId := b.currentCteGroupId }] }, i) :=
  addNode_nongroup _ _ rfl rfl

theorem addNode_aggregation (b : FlowGraphBuilder) (i : String)
    (g a : List String) :
    b.addNode { id := i, data := .aggregation g a } =
      ({ b with nodes := b.nodes ++
          [{ id := i, data := .aggregation g a,
             parentCteId := b.currentCteGroupId }] }, i) :=
  addNode_nongroup _ _ rfl rfl

theorem addNode_cte (b : FlowGraphBuilder) (i cn : String) (oc : List ColumnRef)
    (hw hg : Bool) (ci : Nat) :
    b.addNode { id := i, data := .cte cn oc hw hg ci } =
      ({ b with nodes := b.nodes ++
          [{ id := i, data := .cte cn oc hw hg ci,
             parentCteId := b.currentCteGroupId }] }, i) :=
  addNode_nongroup _ _ rfl rfl

theorem addNode_output (b : FlowGraphBuilder) (i : String) (cols : List ColumnRef)
    (ob : Option String) (lim : Option Int) (tcm : List (String × Nat)) :
    b.addNode { id := i, data := .output cols ob lim tcm } =
      ({ b with nodes := b.nodes ++
          [{ id := i, data := .output cols ob lim tcm,
             parentCteId := b.currentCteGroupId }] }, i) :=
  addNode_nongroup _ _ rfl rfl

theorem addNode_cteGroup (b : FlowGraphBuilder) (i cn : String) (ci : Nat) :
    b.addNode { id := i, data := .cteGroup cn ci } =
      ({ b with nodes := b.nodes ++ [{ id := i, data := .cteGroup cn ci }] }, i) :=
  addNode_group _ _ rfl

open FlowGraphBuilder in
theorem fromEntryNode_ok {b : FlowGraphBuilder} (hInv : Inv b) (tf : TableRef) :
    Inv (fromEntryNode b tf).1 ∧ StepOk b (fromEntryNode b tf).1 ∧
    endpointOk (fromEntryNode b tf).1.nodes (fromEntryNode b tf).2 ∧
    idNum (fromEntryNode b tf).2 < (fromEntryNode b tf).1.nodeCounter := by
  rw [fromEntryNode]
  cases hreg : assocGet b.cteRegistry tf.name with
  | some cid =>
    obtain ⟨n, hn, hid, hcte⟩ := hInv.cteReg _ (assocGet_mem hreg)
    have hep : endpointOk b.nodes cid := ⟨n, hn, hid, isCte_not_group hcte⟩
    have hlt : idNum cid < b.nodeCounter := endpointOk_idNum_lt hInv hep
    cases hal : tf.aliasName with
    | none => exact ⟨hInv, stepOk_refl b, hep, hlt⟩
    | some a =>
      dsimp only
      cases hcol : assocGet b.tableColorMap tf.name with
      | some c =>
        refine ⟨?_, ?_, hep, hlt⟩
        · exact inv_of_fields_eq hInv rfl rfl rfl rfl (fun g hg => hInv.groupOk g hg) le_rfl
        · exact ⟨rfl, rfl, le_refl _, [], by simp, by simp⟩
      | none =>
        refine ⟨?_, ?_, hep, hlt⟩
        · exact inv_of_fields_eq hInv rfl rfl rfl rfl (fun g hg => hInv.groupOk g hg) le_rfl
        · exact ⟨rfl, rfl, le_refl _, [], by simp, by simp⟩
  | none =>
    simp only [FlowGraphBuilder.nextId]
    cases hal : tf.aliasName with
    | none =>
      rw [addNode_tableSource]
      dsimp only
      refine ⟨?_, ?_, ?_, ?_⟩
      · exact inv_add_fresh_node hInv rfl rfl rfl rfl (Or.inr rfl) rfl rfl (Or.inr ⟨rfl, rfl⟩)
      · refine ⟨rfl, rfl, Nat.le_succ _, [_], rfl, ?_⟩
        intro n hn
        simp only [List.mem_singleton] at hn
        subst hn
        exact ⟨rfl, rfl⟩
      · exact ⟨_, List.mem_append_right _ (List.mem_singleton.2 rfl), rfl, rfl⟩
      · rw [idNum_mkId]; exact Nat.lt_succ_self _
    | some a =>
      rw [addNode_tableSource]
      dsimp only
      refine ⟨?_, ?_, ?_, ?_⟩
      · exact inv_add_fresh_node hInv rfl rfl rfl rfl (Or.inr rfl) rfl rfl (Or.inr ⟨rfl, rfl⟩)
      · refine ⟨rfl, rfl, Nat.le_succ _, [_], rfl, ?_⟩
        intro n hn
        simp only [List.mem_singleton] at hn
        subst hn
        exact ⟨rfl, rfl⟩
      · exact ⟨_, List.mem_append_right _ (List.mem_singleton.2 rfl), rfl, rfl⟩
      · rw [idNum_mkId]; exact Nat.lt_succ_self _


open FlowGraphBuilder in
theorem processFromItem_ok (item : FromItem) {b : FlowGraphBuilder}
    {lastO : Option String} (hInv : Inv b) (hlast : LastOk b lastO) :
    Inv (processFromItem (b, lastO) item).1 ∧
    StepOk b (processFromItem (b, lastO) item).1 ∧
    LastOk (processFromItem (b, lastO) item).1 (processFromItem (b, lastO) item).2 := by
  cases item with
  | other tag => exact ⟨hInv, stepOk_refl b, hlast⟩
  | table tf =>
    have H := fromEntryNode_ok hInv tf
    rcases hfe : fromEntryNode b tf with ⟨b1, current⟩
    rw [hfe] at H
    obtain ⟨hInv1, hstep1, hep1, hlt1⟩ := H
    rw [processFromItem]
    dsimp only
    rw [hfe]
    cases hj : tf.joinInfo with
    | none =>
      dsimp only
      refine ⟨hInv1, hstep1, ?_⟩
      intro l hl
      cases hl
      exact hep1
    | some j =>
      cases hl : lastO with
      | none =>
        dsimp only
        refine ⟨hInv1, hstep1, ?_⟩
        intro l hlEq
        cases hlEq
        exact hep1
      | some l =>
        subst hl
        have hepl : endpointOk b.nodes l := hlast l rfl
        have hltl : idNum l < b.nodeCounter := endpointOk_idNum_lt hInv hepl
        dsimp only
        simp only [FlowGraphBuilder.nextId]
        rw [addNode_join]
        dsimp only
        obtain ⟨new1, hnew1, htag1⟩ := hstep1.nodesExt
        -- endpoint facts in the extended node list
        have hepl2 : endpointOk (b1.nodes ++
            [{ id := mkId "join" b1.nodeCounter,
               data := FlowNodeData.join (stripJoinType (j.joinType.getD "INNER JOIN"))
                 (match j.onExpr with | some e => exprToSql e | none => ""),
               parentCteId := b1.currentCteGroupId }]) l := by
          rw [hnew1, List.append_assoc]
          exact endpointOk_append hepl _
        have hepc2 : endpointOk (b1.nodes ++
            [{ id := mkId "join" b1.nodeCounter,
               data := FlowNodeData.join (stripJoinType (j.joinType.getD "INNER JOIN"))
                 (match j.onExpr with | some e => exprToSql e | none => ""),
               parentCteId := b1.currentCteGroupId }]) current :=
          endpointOk_append hep1 _
        have hepj2 : endpointOk (b1.nodes ++
            [{ id := mkId "join" b1.nodeCounter,
               data := FlowNodeData.join (stripJoinType (j.joinType.getD "INNER JOIN"))
                 (match j.onExpr with | some e => exprToSql e | none => ""),
               parentCteId := b1.currentCteGroupId }]) (mkId "join" b1.nodeCounter) :=
          ⟨_, List.mem_append_right _ (List.mem_singleton.2 rfl), rfl, rfl⟩
        have hInv2 : Inv { b1 with
            nodeCounter := b1.nodeCounter + 1,
            nodes := b1.nodes ++
              [{ id := mkId "join" b1.nodeCounter,
                 data := FlowNodeData.join (stripJoinType (j.joinType.getD "INNER JOIN"))
                   (match j.onExpr with | some e => exprToSql e | none => ""),
                 parentCteId := b1.currentCteGroupId }] } :=
          inv_add_fresh_node hInv1 rfl rfl rfl rfl (Or.inr rfl) rfl rfl (Or.inl ⟨rfl, le_rfl⟩)
        have hjnum : idNum (mkId "join" b1.nodeCounter) = b1.nodeCounter := idNum_mkId _ _
        refine ⟨?_, ?_, ?_⟩
        · refine inv_addEdge (inv_addEdge hInv2 hepl2 hepj2 ?_) hepc2 hepj2 ?_
          · rw [hjnum]
            exact lt_of_lt_of_le hltl hstep1.counterLe
          · rw [hjnum]
            exact hlt1
        · refine StepOk.trans hstep1 ?_
          refine ⟨rfl, rfl, Nat.le_succ _, [_], rfl, ?_⟩
          intro n hn
          simp only [List.mem_singleton] at hn
          subst hn
          exact ⟨rfl, rfl⟩
        · intro x hx
          cases hx
          exact hepj2

open FlowGraphBuilder in
theorem processFrom_foldl_ok (items : List FromItem) :
    ∀ {b : FlowGraphBuilder} {lastO : Option String}, Inv b → LastOk b lastO →
    Inv (items.foldl processFromItem (b, lastO)).1 ∧
    StepOk b (items.foldl processFromItem (b, lastO)).1 ∧
    LastOk (items.foldl processFromItem (b, lastO)).1
      (items.foldl processFromItem (b, lastO)).2 := by
  induction items with
  | nil => intro b lastO hInv hlast; exact ⟨hInv, stepOk_refl b, hlast⟩
  | cons item rest ih =>
    intro b lastO hInv hlast
    rw [List.foldl_cons]
    have H := processFromItem_ok item hInv hlast
    rcases hpi : processFromItem (b, lastO) item with ⟨b1, last1⟩
    rw [hpi] at H
    obtain ⟨hInv1, hstep1, hlast1⟩ := H
    obtain ⟨hInv2, hstep2, hlast2⟩ := ih hInv1 hlast1
    exact ⟨hInv2, StepOk.trans hstep1 hstep2, hlast2⟩

open FlowGraphBuilder in
theorem processFrom_ok {b : FlowGraphBuilder} (hInv : Inv b) (items : List FromItem) :
    Inv (b.processFrom items).1 ∧ StepOk b (b.processFrom items).1 ∧
    LastOk (b.processFrom items).1 (b.processFrom items).2 :=
  processFrom_foldl_ok items hInv (LastOk.none b)


open FlowGraphBuilder in
theorem chainStep_ok {b : FlowGraphBuilder} (hInv : Inv b) {lastO : Option String}
    (hlast : LastOk b lastO) (tag : String) (d : FlowNodeData)
    (hd : isCteGroup d = false) (hcol : tsColor d = none)
    (cols : Option (List String)) (anim : Option Bool) :
    Inv (chainStep b lastO tag d cols anim).1 ∧
    StepOk b (chainStep b lastO tag d cols anim).1 ∧
    LastOk (chainStep b lastO tag d cols anim).1
      (some (chainStep b lastO tag d cols anim).2) ∧
    (chainStep b lastO tag d cols anim).2 = mkId tag b.nodeCounter ∧
    (∃ n, n ∈ (chainStep b lastO tag d cols anim).1.nodes ∧
      n.id = (chainStep b lastO tag d cols anim).2 ∧ n.data = d) ∧
    (chainStep b lastO tag d cols anim).1.nodes =
      b.nodes ++ [{ id := mkId tag b.nodeCounter, data := d, parentCteId := b.currentCteGroupId }] ∧
    (chainStep b lastO tag d cols anim).1.currentCteGroupId = b.currentCteGroupId := by
  rw [chainStep]
  simp only [FlowGraphBuilder.nextId]
  rw [addNode_nongroup _ _ hd rfl]
  dsimp only
  have hep2 : endpointOk (b.nodes ++ [{ id := mkId tag b.nodeCounter, data := d, parentCteId := b.currentCteGroupId }]) (mkId tag b.nodeCounter) :=
    ⟨_, List.mem_append_right _ (List.mem_singleton.2 rfl), rfl, hd⟩
  have hmem2 : ({ id := mkId tag b.nodeCounter, data := d, parentCteId := b.currentCteGroupId } : FlowNode) ∈ b.nodes ++ [{ id := mkId tag b.nodeCounter, data := d, parentCteId := b.currentCteGroupId }] :=
    List.mem_append_right _ (List.mem_singleton.2 rfl)
  have hInv2 : Inv { b with nodeCounter := b.nodeCounter + 1, nodes := b.nodes ++ [{ id := mkId tag b.nodeCounter, data := d, parentCteId := b.currentCteGroupId }] } :=
    inv_add_fresh_node hInv rfl rfl rfl rfl (Or.inr rfl) rfl rfl (Or.inl ⟨hcol, le_rfl⟩)
  have hstep2 : StepOk b { b with nodeCounter := b.nodeCounter + 1, nodes := b.nodes ++ [{ id := mkId tag b.nodeCounter, data := d, parentCteId := b.currentCteGroupId }] } := by
    refine ⟨rfl, rfl, Nat.le_succ _, [_], rfl, ?_⟩
    intro n hn
    simp only [List.mem_singleton] at hn
    subst hn
    exact ⟨rfl, hd⟩
  cases lastO with
  | none =>
    refine ⟨hInv2, hstep2, ?_, by trivial, ⟨_, hmem2, rfl, rfl⟩, rfl, rfl⟩
    intro x hx
    cases hx
    exact hep2
  | some l =>
    have hepl : endpointOk b.nodes l := hlast l rfl
    have hltl : idNum l < b.nodeCounter := endpointOk_idNum_lt hInv hepl
    dsimp only
    refine ⟨?_, ?_, ?_, by trivial, ⟨_, hmem2, rfl, rfl⟩, rfl, rfl⟩
    · refine inv_addEdge hInv2 (endpointOk_append hepl _) hep2 ?_
      rw [idNum_mkId]
      exact hltl
    · exact ⟨rfl, rfl, Nat.le_succ _, [_], rfl, fun n hn => by
        simp only [List.mem_singleton] at hn
        subst hn
        exact ⟨rfl, hd⟩⟩
    · intro x hx
      cases hx
      exact hep2

open FlowGraphBuilder in
theorem fromStage_ok {b : FlowGraphBuilder} (hInv : Inv b)
    (fi : Option (List FromItem)) :
    Inv (fromStage b fi).1 ∧ StepOk b (fromStage b fi).1 ∧
    LastOk (fromStage b fi).1 (fromStage b fi).2 := by
  cases fi with
  | none => exact ⟨hInv, stepOk_refl b, LastOk.none b⟩
  | some items =>
    simp only [fromStage]
    by_cases hlen : items.length > 0
    · rw [if_pos hlen]
      exact processFrom_ok hInv items
    · rw [if_neg hlen]
      exact ⟨hInv, stepOk_refl b, LastOk.none b⟩

open FlowGraphBuilder in
theorem whereStage_ok {b : FlowGraphBuilder} (hInv : Inv b) {lastO : Option String}
    (hlast : LastOk b lastO) (w : Option Expr) :
    Inv (whereStage b lastO w).1 ∧ StepOk b (whereStage b lastO w).1 ∧
    LastOk (whereStage b lastO w).1 (whereStage b lastO w).2 := by
  cases w with
  | none => exact ⟨hInv, stepOk_refl b, hlast⟩
  | some w' =>
    simp only [whereStage]
    obtain ⟨h1, h2, h3, _, _, _, _⟩ := chainStep_ok hInv hlast "filter"
      (.filter (exprToSql w')) rfl rfl none (some true)
    rcases hc : chainStep b lastO "filter" (.filter (exprToSql w')) none (some true)
      with ⟨b1, i1⟩
    rw [hc] at h1 h2 h3
    exact ⟨h1, h2, h3⟩

open FlowGraphBuilder in
theorem groupByStage_ok {b : FlowGraphBuilder} (hInv : Inv b) {lastO : Option String}
    (hlast : LastOk b lastO) (sel : SelectStmt) :
    Inv (groupByStage b lastO sel).1 ∧ StepOk b (groupByStage b lastO sel).1 ∧
    LastOk (groupByStage b lastO sel).1 (groupByStage b lastO sel).2 := by
  rw [groupByStage]
  cases hg : sel.groupBy with
  | none => exact ⟨hInv, stepOk_refl b, hlast⟩
  | some gb =>
    dsimp only
    by_cases hlen : gb.length > 0
    · rw [if_pos hlen]
      dsimp only
      obtain ⟨h1, h2, h3, _, _, _, _⟩ := chainStep_ok hInv hlast "agg"
        (.aggregation (gb.map exprToSql)
          (((sel.columns.getD []).flatMap fun col =>
            match col.expr with
            | some e => extractAggregates e
            | none => []).foldl setAdd [])) rfl rfl none (some true)
      rcases hc : chainStep b lastO "agg"
        (.aggregation (gb.map exprToSql)
          (((sel.columns.getD []).flatMap fun col =>
            match col.expr with
            | some e => extractAggregates e
            | none => []).foldl setAdd [])) none (some true) with ⟨b1, i1⟩
      rw [hc] at h1 h2 h3
      exact ⟨h1, h2, h3⟩
    · rw [if_neg hlen]
      exact ⟨hInv, stepOk_refl b, hlast⟩

open FlowGraphBuilder in
theorem processSelectInner_ok {b : FlowGraphBuilder} (hInv : Inv b) (sel : SelectStmt) :
    Inv (b.processSelectInner sel).1 ∧ StepOk b (b.processSelectInner sel).1 ∧
    LastOk (b.processSelectInner sel).1 (b.processSelectInner sel).2 := by
  rw [processSelectInner]
  obtain ⟨hInv0, hstep0⟩ := inv_collectReferencedColumns hInv sel
  obtain ⟨hInv1, hstep1, hlast1⟩ := fromStage_ok hInv0 sel.fromItems
  rcases hf : fromStage (b.collectReferencedColumns sel) sel.fromItems with ⟨b1, l1⟩
  rw [hf] at hInv1 hstep1 hlast1
  dsimp only
  obtain ⟨hInv2, hstep2, hlast2⟩ := whereStage_ok hInv1 hlast1 sel.whereClause
  rcases hw : whereStage b1 l1 sel.whereClause with ⟨b2, l2⟩
  rw [hw] at hInv2 hstep2 hlast2
  dsimp only
  obtain ⟨hInv3, hstep3, hlast3⟩ := groupByStage_ok hInv2 hlast2 sel
  exact ⟨hInv3, StepOk.trans hstep0 (StepOk.trans hstep1 (StepOk.trans hstep2 hstep3)),
    hlast3⟩



open FlowGraphBuilder in
theorem processCTE_ok {b : FlowGraphBuilder} (hInv : Inv b) (name : String)
    (sel : SelectStmt) :
    Inv (b.processCTE name sel) ∧
    (b.processCTE name sel).currentCteGroupId = none ∧
    (∃ inner cteNode,
      (b.processCTE name sel).nodes =
        (b.nodes ++ [{ id := mkId "cte_group" b.nodeCounter, data := .cteGroup name b.tableColorCounter, parentCteId := none }]) ++ inner ++ [cteNode] ∧
      (∀ n ∈ inner, n.parentCteId = some (mkId "cte_group" b.nodeCounter)) ∧
      cteNode.parentCteId = some (mkId "cte_group" b.nodeCounter) ∧
      isCte cteNode.data = true) := by
  rw [processCTE]
  dsimp only
  simp only [FlowGraphBuilder.nextId]
  rw [addNode_cteGroup]
  dsimp only
  -- state after adding the group node and activating the group
  set gnode : FlowNode := { id := mkId "cte_group" b.nodeCounter, data := .cteGroup name b.tableColorCounter, parentCteId := none } with hgnode
  have hInvC : Inv { b with tableColorCounter := b.tableColorCounter + 1, tableColorMap := assocSet b.tableColorMap name b.tableColorCounter, nodeCounter := b.nodeCounter + 1, nodes := b.nodes ++ [gnode] } := by
    exact @inv_add_fresh_node b { b with tableColorCounter := b.tableColorCounter + 1, tableColorMap := assocSet b.tableColorMap name b.tableColorCounter, nodeCounter := b.nodeCounter + 1, nodes := b.nodes ++ [gnode] } hInv gnode "cte_group" rfl rfl rfl rfl (Or.inl rfl) rfl rfl (Or.inl ⟨rfl, Nat.le_succ _⟩)
  have hInvD : Inv { b with tableColorCounter := b.tableColorCounter + 1, tableColorMap := assocSet b.tableColorMap name b.tableColorCounter, nodeCounter := b.nodeCounter + 1, nodes := b.nodes ++ [gnode], currentCteGroupId := some gnode.id } := by
    refine inv_of_fields_eq hInvC rfl rfl rfl rfl ?_ le_rfl
    intro g hg
    simp only [Option.some.injEq] at hg
    exact ⟨gnode, List.mem_append_right _ (List.mem_singleton.2 rfl), hg, rfl⟩
  obtain ⟨hInvE, hstepE, hlastE⟩ := processSelectInner_ok hInvD sel
  rcases hpsi : FlowGraphBuilder.processSelectInner { b with tableColorCounter := b.tableColorCounter + 1, tableColorMap := assocSet b.tableColorMap name b.tableColorCounter, nodeCounter := b.nodeCounter + 1, nodes := b.nodes ++ [gnode], currentCteGroupId := some gnode.id } sel with ⟨bE, innerLast⟩
  rw [hpsi] at hInvE hstepE hlastE
  dsimp only at hInvE hstepE hlastE ⊢
  obtain ⟨hInvF, hstepF, _, _, hnodeF, hnodesF, hgrpF⟩ := chainStep_ok hInvE hlastE "cte"
    (.cte name (resolveSelectColumns sel) sel.whereClause.isSome
      (match sel.groupBy with
       | some gb => gb.length > 0
       | none => false) b.tableColorCounter) rfl rfl none (some true)
  rcases hcs : chainStep bE innerLast "cte"
    (.cte name (resolveSelectColumns sel) sel.whereClause.isSome
      (match sel.groupBy with
       | some gb => gb.length > 0
       | none => false) b.tableColorCounter) none (some true) with ⟨bF, cteId⟩
  rw [hcs] at hInvF hstepF hnodeF hnodesF hgrpF
  dsimp only at hInvF hstepF hnodeF hnodesF hgrpF ⊢
  have hInvG : Inv { bF with currentCteGroupId := none } := by
    refine inv_of_fields_eq hInvF rfl rfl rfl rfl ?_ le_rfl
    intro g hg
    cases hg
  obtain ⟨newE, hnewE, htagE⟩ := hstepE.nodesExt
  refine ⟨?_, by trivial, ?_⟩
  · -- the final registry update
    refine ⟨hInvG.idLt, hInvG.idMono, hInvG.edgeSrc, hInvG.edgeTgt, hInvG.edgeLt, ?_, hInvG.groupOk, hInvG.parentOk, hInvG.colMono, hInvG.colLt⟩
    intro p hp
    rcases assocSet_mem hp with h | h
    · subst h
      obtain ⟨n, hn, hid, hdata⟩ := hnodeF
      exact ⟨n, hn, hid, by simp [hdata, isCte]⟩
    · exact hInvG.cteReg p h
  · -- node decomposition
    refine ⟨newE, ⟨mkId "cte" bE.nodeCounter,
      .cte name (resolveSelectColumns sel) sel.whereClause.isSome
        (match sel.groupBy with
         | some gb => gb.length > 0
         | none => false) b.tableColorCounter, bE.currentCteGroupId⟩, ?_, ?_, ?_, ?_⟩
    · rw [hnodesF, hnewE]
    · intro n hn
      exact (htagE n hn).1
    · exact hstepE.group
    · rfl


open FlowGraphBuilder in
theorem processSelect_ok {b : FlowGraphBuilder} (hInv : Inv b) (sel : SelectStmt) :
    Inv (b.processSelect sel) := by
  rw [processSelect]
  obtain ⟨hInv1, hstep1, hlast1⟩ := processSelectInner_ok hInv sel
  rcases hpsi : b.processSelectInner sel with ⟨b1, l1⟩
  rw [hpsi] at hInv1 hstep1 hlast1
  dsimp only at hInv1 hstep1 hlast1 ⊢
  obtain ⟨hInv2, _, _, _, _, _, _⟩ := chainStep_ok hInv1 hlast1 "output"
    (.output (resolveSelectColumns sel)
      (match sel.orderBy with
       | some os => some (String.intercalate ", " (os.map fun o => exprToSql o.byExpr))
       | none => none)
      (match sel.limit with
       | some (.intLit v) => some v
       | _ => none) b1.tableColorMap)
    rfl rfl (some ((resolveSelectColumns sel).map (·.name))) (some true)
  exact hInv2

theorem processBinds_inv : ∀ (binds : List (String × Stmt)) {b : FlowGraphBuilder},
    Inv b → Inv (processBinds b binds) := by
  intro binds
  induction binds with
  | nil => intro b h; exact h
  | cons bind rest ih =>
    intro b h
    cases bind with
    | mk name stmt =>
      cases stmt with
      | select s =>
        rw [processBinds]
        exact ih (processCTE_ok h name s).1
      | withStmt bs i =>
        rw [processBinds]
        exact ih h
        intro s hs
        exact Stmt.noConfusion hs
      | other t =>
        rw [processBinds]
        exact ih h
        intro s hs
        exact Stmt.noConfusion hs

open FlowGraphBuilder in
theorem runStatement_graph_inv {ast : Stmt} {schema : List SchemaTable} {g : FlowGraph}
    (h : runStatement ast schema = .graph g) :
    ∃ b, Inv b ∧ g.nodes = b.nodes ∧ g.edges = b.edges := by
  cases ast with
  | select s =>
    rw [runStatement] at h
    try dsimp only at h
    cases h
    exact ⟨(FlowGraphBuilder.init schema).processSelect s,
      processSelect_ok (inv_init schema) s, rfl, rfl⟩
  | withStmt binds inner =>
    have hb := processBinds_inv binds (inv_init schema)
    cases inner with
    | select s =>
      rw [runStatement] at h
      try dsimp only at h
      cases h
      exact ⟨_, processSelect_ok hb s, rfl, rfl⟩
    | withStmt bs i =>
      rw [runStatement] at h
      · try dsimp only at h
        cases h
        exact ⟨_, hb, rfl, rfl⟩
      · intro s hs
        exact Stmt.noConfusion hs
    | other t =>
      rw [runStatement] at h
      · try dsimp only at h
        cases h
        exact ⟨_, hb, rfl, rfl⟩
      · intro s hs
        exact Stmt.noConfusion hs
  | other t =>
    rw [runStatement] at h
    cases h

theorem Inv.idsNodup {b : FlowGraphBuilder} (hInv : Inv b) :
    (b.nodes.map fun n => n.id).Nodup := by
  have h1 : (b.nodes.map fun n => idNum n.id).Nodup :=
    hInv.idMono.imp (fun h => Nat.ne_of_lt h)
  have h2 : b.nodes.map (fun n => idNum n.id) =
      (b.nodes.map fun n => n.id).map idNum := by
    rw [List.map_map]
    rfl
  rw [h2] at h1
  exact h1.of_map


/-! ## The claims -/

/-- C1: every FlowGraph returned by `sqlToFlowGraph` is well-formed: node ids
are pairwise distinct, every edge endpoint is the id of an existing node,
every `parentCteId` names an existing `cte-group` node, and no `cte-group`
node is an edge endpoint. -/
theorem c1_graph_wellformed (pr : Except String Stmt) (schema : List SchemaTable)
    (g : FlowGraph) (h : sqlToFlowGraph pr schema = .graph g) :
    (g.nodes.map fun n => n.id).Nodup ∧
    (∀ e ∈ g.edges, (∃ n ∈ g.nodes, n.id = e.source) ∧ ∃ n ∈ g.nodes, n.id = e.target) ∧
    (∀ n ∈ g.nodes, ∀ p, n.parentCteId = some p →
      ∃ m ∈ g.nodes, m.id = p ∧ isCteGroup m.data = true) ∧
    (∀ e ∈ g.edges, ∀ n ∈ g.nodes, (n.id = e.source ∨ n.id = e.target) →
      isCteGroup n.data = false) := by
  cases pr with
  | error m => rw [sqlToFlowGraph] at h; cases h
  | ok ast =>
    rw [sqlToFlowGraph] at h
    obtain ⟨b, hInv, hn, he⟩ := runStatement_graph_inv h
    rw [hn, he]
    have hnodup := hInv.idsNodup
    refine ⟨hnodup, ?_, ?_, ?_⟩
    · intro e heMem
      obtain ⟨n1, hn1, hid1, _⟩ := hInv.edgeSrc e heMem
      obtain ⟨n2, hn2, hid2, _⟩ := hInv.edgeTgt e heMem
      exact ⟨⟨n1, hn1, hid1⟩, ⟨n2, hn2, hid2⟩⟩
    · intro n hn p hp
      obtain ⟨m, hm, hid, hg⟩ := hInv.parentOk n hn p hp
      exact ⟨m, hm, hid, hg⟩
    · intro e heMem n hn hor
      have hinj := List.inj_on_of_nodup_map hnodup
      rcases hor with hsrc | htgt
      · obtain ⟨m, hm, hid, hg⟩ := hInv.edgeSrc e heMem
        have : n = m := hinj hn hm (by rw [hid, hsrc])
        rw [this]
        exact hg
      · obtain ⟨m, hm, hid, hg⟩ := hInv.edgeTgt e heMem
        have : n = m := hinj hn hm (by rw [hid, htgt])
        rw [this]
        exact hg

/-- Witness for C1 at a concrete WITH-query. -/
theorem c1_graph_wellformed_witness :
    (graphWithTrivial.nodes.map fun n => n.id).Nodup :=
  (c1_graph_wellformed (.ok astWithTrivial) [] graphWithTrivial rfl).1

/-- C2 counterexample: a WITH statement whose inner statement is not a select
does not produce the "Only SELECT queries can be visualized." error — it
produces a graph. -/
theorem c2_with_nonselect_counterexample :
    sqlToFlowGraph (.ok astWithInsert) [] = .graph graphWithInsert ∧
    sqlToFlowGraph (.ok astWithInsert) [] ≠
      .error "Only SELECT queries can be visualized." := by
  refine ⟨rfl, ?_⟩
  intro h
  rw [show sqlToFlowGraph (.ok astWithInsert) [] = .graph graphWithInsert from rfl] at h
  cases h

/-- C2 (amended): a top-level statement that is neither `select` nor `with`
yields exactly the "Only SELECT queries can be visualized." error; a `with`
whose inner statement is not a select instead yields the graph built from its
CTEs alone. -/
theorem c2_only_select_error (tag : String) (schema : List SchemaTable) :
    sqlToFlowGraph (.ok (.other tag)) schema =
      .error "Only SELECT queries can be visualized." := rfl

/-- C3 counterexample: in the graph of `WITH c AS (SELECT 1 AS x) SELECT 1`,
the `cte` result node itself carries `parentCteId = some "cte_group_0"`,
contradicting the claim that it is untagged. -/
theorem c3_cte_node_tagged_counterexample :
    sqlToFlowGraph (.ok astWithTrivial) [] = .graph graphWithTrivial ∧
    graphWithTrivial.nodes.map (fun n => (isCte n.data, n.parentCteId)) =
      [(false, none), (true, some "cte_group_0"), (false, none)] := by
  exact ⟨rfl, by decide⟩

/-- C3 (amended): during `processCTE`, the `cte-group` node is created
untagged, every node created while processing the CTE body carries
`parentCteId` equal to the group node's id, and the `cte` result node is
created while the group is still active, so it carries the same
`parentCteId` as well. -/
theorem c3_cte_tagging_amended {b : FlowGraphBuilder} (hInv : Inv b)
    (name : String) (sel : SelectStmt) :
    ∃ inner cteNode,
      (b.processCTE name sel).nodes =
        (b.nodes ++ [{ id := mkId "cte_group" b.nodeCounter, data := .cteGroup name b.tableColorCounter, parentCteId := none }]) ++ inner ++ [cteNode] ∧
      (∀ n ∈ inner, n.parentCteId = some (mkId "cte_group" b.nodeCounter)) ∧
      cteNode.parentCteId = some (mkId "cte_group" b.nodeCounter) ∧
      isCte cteNode.data = true :=
  (processCTE_ok hInv name sel).2.2

/-- Witness for C3 (amended) on a fresh builder. -/
theorem c3_cte_tagging_amended_witness :
    ∃ inner cteNode,
      ((FlowGraphBuilder.init []).processCTE "c" { columns := some [{ expr := some (.intLit 1), aliasName := some "x" }], fromItems := none, whereClause := none, groupBy := none, orderBy := none, limit := none }).nodes =
        ((FlowGraphBuilder.init []).nodes ++ [{ id := mkId "cte_group" (FlowGraphBuilder.init []).nodeCounter, data := .cteGroup "c" (FlowGraphBuilder.init []).tableColorCounter, parentCteId := none }]) ++ inner ++ [cteNode] ∧
      (∀ n ∈ inner, n.parentCteId = some (mkId "cte_group" (FlowGraphBuilder.init []).nodeCounter)) ∧
      cteNode.parentCteId = some (mkId "cte_group" (FlowGraphBuilder.init []).nodeCounter) ∧
      isCte cteNode.data = true :=
  c3_cte_tagging_amended (inv_init []) "c" _

/-- C4 counterexample: `SELECT x FROM t, t AS b` creates two `table-source`
nodes for the same table `t` with different `colorIndex`es (0 and 1). -/
theorem c4_color_counterexample :
    sqlToFlowGraph (.ok astSelfJoin) [] = .graph graphSelfJoin ∧
    graphSelfJoin.nodes.filterMap (fun n => tsInfo n.data) = [("t", 0), ("t", 1)] := by
  exact ⟨rfl, by decide⟩

/-- C4 (amended): a fresh color index is allocated every time a
`table-source` node is created (even for a previously seen table name), so
within one built graph the `table-source` color indices are strictly
increasing in creation order — distinct `table-source` nodes never share a
`colorIndex`. -/
theorem c4_fresh_colors (pr : Except String Stmt) (schema : List SchemaTable)
    (g : FlowGraph) (h : sqlToFlowGraph pr schema = .graph g) :
    (g.nodes.filterMap fun n => tsColor n.data).Pairwise (· < ·) := by
  cases pr with
  | error m => rw [sqlToFlowGraph] at h; cases h
  | ok ast =>
    rw [sqlToFlowGraph] at h
    obtain ⟨b, hInv, hn, _⟩ := runStatement_graph_inv h
    rw [hn]
    exact hInv.colMono

/-- Witness for C4 (amended) at the self-join query. -/
theorem c4_fresh_colors_witness :
    (graphSelfJoin.nodes.filterMap fun n => tsColor n.data).Pairwise (· < ·) :=
  c4_fresh_colors (.ok astSelfJoin) [] graphSelfJoin rfl

/-- C5: for `SELECT a.x FROM t AS a`, with or without schema metadata, the
computed lineage is exactly one entry resolving output column `x` through the
alias `a` to `t.x`. -/
theorem c5_lineage_roundtrip (schema : List SchemaTable) (fuel : Nat) :
    sqlToFlowGraph (.ok astLineage) schema = .graph (graphLineage schema) ∧
    computeColumnLineageF (fuel + 1) (graphLineage schema) =
      some [{ outputColumn := "x", sources := [{ table := "t", column := "x" }] }] :=
  ⟨rfl, rfl⟩

/-- C8: `exprToSql` is total by construction; it returns the renderer's
output when the renderer succeeds and the placeholder `"(expr)"` when the
renderer fails. -/
theorem c8_exprToSql_total (e : Expr) :
    (∀ s, toSqlExpr e = some s → exprToSql e = s) ∧
    (toSqlExpr e = none → exprToSql e = "(expr)") := by
  constructor
  · intro s hs
    rw [exprToSql, hs]
  · intro h
    rw [exprToSql, h]

/-- Witness for C8: the renderer fails on an unsupported node and
`exprToSql` returns the placeholder. -/
theorem c8_exprToSql_total_witness :
    exprToSql (Expr.unsupported "extensionNode") = "(expr)" :=
  (c8_exprToSql_total (Expr.unsupported "extensionNode")).2 rfl

/-- C6: `sqlToFlowGraph` always returns a graph or an error value, and a
parse failure surfaces as `Parse error: <message>`. -/
theorem c6_never_throws (pr : Except String Stmt) (schema : List SchemaTable) :
    ((∃ g, sqlToFlowGraph pr schema = .graph g) ∨
      (∃ m, sqlToFlowGraph pr schema = .error m)) ∧
    (∀ m, pr = .error m →
      sqlToFlowGraph pr schema = .error ("Parse error: " ++ m)) := by
  constructor
  · cases hr : sqlToFlowGraph pr schema with
    | graph g => exact Or.inl ⟨g, rfl⟩
    | error m => exact Or.inr ⟨m, rfl⟩
  · intro m hm
    subst hm
    rfl

/-- Witness for C6 on a concrete parse failure. -/
theorem c6_never_throws_witness :
    sqlToFlowGraph (.error "boom") [] = .error "Parse error: boom" :=
  (c6_never_throws (.error "boom") []).2 "boom" rfl


theorem traceParents_len {recur : ColumnRef → String → Option (List TableColumn)}
    (hrec : ∀ c i l, recur c i = some l → l.length ≤ 1)
    (nm : List (String × FlowNode)) (col : ColumnRef) :
    ∀ (parents : List String) (l : List TableColumn),
      traceParents recur nm col parents = some l → l.length ≤ 1 := by
  intro parents
  induction parents with
  | nil =>
    intro l h
    rw [traceParents] at h
    cases h
    simp
  | cons pid rest ih =>
    intro l h
    rw [traceParents] at h
    split at h
    · exact ih l h
    · dsimp only at h
      split at h
      · cases h
        simp
      · split at h
        · cases h
        · rename_i r hr
          split at h
          · exact ih l h
          · cases h
            exact hrec _ _ _ hr

theorem traceColumnF_len (nm : List (String × FlowNode))
    (ie : List (String × List String)) :
    ∀ (fuel : Nat) (col : ColumnRef) (cur : String) (l : List TableColumn),
      traceColumnF nm ie fuel col cur = some l → l.length ≤ 1 := by
  intro fuel
  induction fuel with
  | zero => intro col cur l h; cases h
  | succ f ih =>
    intro col cur l h
    rw [traceColumnF, traceStep] at h
    try dsimp only at h
    split at h
    · split at h
      · cases h
        simp
      · split at h
        · split at h
          · split at h
            · exact ih _ _ _ h
            · cases h
              simp
          · cases h
            simp
        · exact traceParents_len ih nm col _ l h
    · exact traceParents_len ih nm col _ l h

theorem collectLineage_sources {f : ColumnRef → Option (List TableColumn)} :
    ∀ (cols : List ColumnRef) (l : List LineageEntry),
      collectLineage f cols = some l →
      ∀ en ∈ l, ∃ c srcs, f c = some srcs ∧ en.sources = srcs := by
  intro cols
  induction cols with
  | nil =>
    intro l h
    cases h
    intro en hen
    cases hen
  | cons c cs ih =>
    intro l h
    rw [collectLineage] at h
    split at h
    · cases h
    · rename_i srcs hfc
      split at h
      · cases h
      · rename_i rest hrest
        cases h
        intro en hen
        rcases List.mem_cons.1 hen with heq | hmem
        · exact ⟨c, srcs, hfc, by rw [heq]⟩
        · exact ih rest hrest en hmem

/-- C9: every entry in a lineage result carries at most one source: the
tracer returns either a single `{table, column}` pair or the empty list. -/
theorem c9_sources_at_most_one (g : FlowGraph) (fuel : Nat)
    (l : List LineageEntry) (h : computeColumnLineageF fuel g = some l) :
    ∀ en ∈ l, en.sources.length ≤ 1 := by
  rw [computeColumnLineageF] at h
  try dsimp only at h
  split at h
  · cases h
    intro en hen
    cases hen
  · split at h
    · intro en hen
      obtain ⟨c, srcs, hfc, hsrcs⟩ := collectLineage_sources _ l h en hen
      rw [hsrcs]
      exact traceColumnF_len _ _ fuel c _ srcs hfc
    · cases h
      intro en hen
      cases hen

/-- Witness for C9 on the alias round-trip graph. -/
theorem c9_sources_at_most_one_witness :
    ({ outputColumn := "x", sources := [{ table := "t", column := "x" }] } :
      LineageEntry).sources.length ≤ 1 :=
  c9_sources_at_most_one (graphLineage []) 2 _ rfl _ (List.mem_singleton.2 rfl)

/-- C10 (amended): every built graph is acyclic — node ids carry strictly
increasing creation indices along the node list and every edge points from an
earlier-created node to a strictly later-created one, so creation order is a
topological order of the edge relation. -/
theorem c10_acyclic (pr : Except String Stmt) (schema : List SchemaTable)
    (g : FlowGraph) (h : sqlToFlowGraph pr schema = .graph g) :
    (g.nodes.map fun n => idNum n.id).Pairwise (· < ·) ∧
    ∀ e ∈ g.edges, idNum e.source < idNum e.target := by
  cases pr with
  | error m => rw [sqlToFlowGraph] at h; cases h
  | ok ast =>
    rw [sqlToFlowGraph] at h
    obtain ⟨b, hInv, hn, he⟩ := runStatement_graph_inv h
    rw [hn, he]
    exact ⟨hInv.idMono, hInv.edgeLt⟩

/-- Witness for C10 (amended) on the self-referential CTE query. -/
theorem c10_acyclic_witness :
    (graphCteLoop.nodes.map fun n => idNum n.id).Pairwise (· < ·) :=
  (c10_acyclic (.ok astCteLoop) [] graphCteLoop rfl).1

/-- The backward search loops forever on `graphCteLoop`: tracing the output
column `s` reaches the `cte` node `cte_2` and re-enters it with the same
column at every fuel level. -/
theorem graphCteLoop_trace_none : ∀ fuel,
    traceColumnF (mkNodeMap graphCteLoop.nodes) (mkIncoming graphCteLoop.edges)
      fuel { name := "s", sourceTable := some "t", sourceColumn := some "s" }
      "cte_2" = none := by
  intro fuel
  induction fuel with
  | zero => rfl
  | succ f ih => exact ih

theorem graphCteLoop_lineage_none : ∀ fuel,
    computeColumnLineageF fuel graphCteLoop = none := by
  intro fuel
  cases fuel with
  | zero => rfl
  | succ f =>
    have key : computeColumnLineageF (f + 1) graphCteLoop =
        (match traceColumnF (mkNodeMap graphCteLoop.nodes)
            (mkIncoming graphCteLoop.edges) f
            { name := "s", sourceTable := some "t", sourceColumn := some "s" }
            "cte_2" with
         | none => none
         | some srcs => some [{ outputColumn := "s", sources := srcs }]) := rfl
    rw [key, graphCteLoop_trace_none f]

/-- C10 counterexample: `sqlToFlowGraph` produces `graphCteLoop`, yet
`computeColumnLineage` does not terminate on it — no amount of fuel makes the
backward search return. -/
theorem c10_divergence_counterexample :
    sqlToFlowGraph (.ok astCteLoop) [] = .graph graphCteLoop ∧
    ¬ lineageTerminates graphCteLoop := by
  refine ⟨rfl, ?_⟩
  rintro ⟨fuel, hsome⟩
  rw [graphCteLoop_lineage_none fuel] at hsome
  cases hsome


/-! ## Lemmas for the layout edge partition (claim C7) -/

theorem assocGet_assocSet_self {α : Type} (m : List (String × α)) (k : String)
    (v : α) : assocGet (assocSet m k v) k = some v := by
  induction m with
  | nil => simp [assocSet, assocGet]
  | cons p rest ih =>
    rw [assocSet]
    by_cases h : p.1 = k
    · rw [if_pos h]
      simp [assocGet]
    · rw [if_neg h]
      rw [assocGet, if_neg h]
      exact ih

theorem assocGet_assocSet_ne {α : Type} (m : List (String × α)) (k k' : String)
    (v : α) (h : k' ≠ k) : assocGet (assocSet m k v) k' = assocGet m k' := by
  induction m with
  | nil =>
    rw [assocSet]
    simp only [assocGet]
    rw [if_neg (Ne.symm h)]
  | cons p rest ih =>
    rw [assocSet]
    by_cases hp : p.1 = k
    · rw [if_pos hp]
      simp only [assocGet]
      rw [if_neg (Ne.symm h), if_neg (fun hh => (Ne.symm h) (hp.symm.trans hh))]
    · rw [if_neg hp]
      simp only [assocGet]
      by_cases hq : p.1 = k'
      · rw [if_pos hq, if_pos hq]
      · rw [if_neg hq, if_neg hq]
        exact ih

theorem count_flatMap_assocSet {m : List (String × List ElkEdge)} {k : String}
    {v : List ElkEdge} (h : assocGet m k = some v) (y x : ElkEdge) :
    ((assocSet m k (v ++ [y])).flatMap (fun p => p.2)).count x =
      (m.flatMap (fun p => p.2)).count x + List.count x [y] := by
  induction m with
  | nil => simp [assocGet] at h
  | cons p rest ih =>
    rw [assocGet] at h
    rw [assocSet]
    by_cases hp : p.1 = k
    · rw [if_pos hp] at *
      simp only [Option.some.injEq] at h
      subst h
      simp only [List.flatMap_cons, List.count_append]
      omega
    · rw [if_neg hp] at *
      simp only [List.flatMap_cons, List.count_append]
      rw [ih h]
      omega

theorem edgeInternalTo_none {pm : List (String × String)} {gids : List String}
    {e : FlowEdge} (hsp : assocGet pm e.source = none) (gid : String) :
    edgeInternalTo pm gids gid e = false := by
  simp [edgeInternalTo, hsp]

theorem edgeInternalTo_ne {pm : List (String × String)} {gids : List String}
    {e : FlowEdge} {sp : String} (hsp : assocGet pm e.source = some sp)
    {gid : String} (hne : gid ≠ sp) : edgeInternalTo pm gids gid e = false := by
  simp [edgeInternalTo, hsp]
  intro hh
  exact absurd hh.symm hne

theorem edgeInternalTo_self {pm : List (String × String)} {gids : List String}
    {e : FlowEdge} {sp : String} (hsp : assocGet pm e.source = some sp) :
    edgeInternalTo pm gids sp e = edgeInternal pm gids e := by
  simp [edgeInternalTo, edgeInternal, hsp]

theorem edgeInternal_cond {pm : List (String × String)} {gids : List String}
    {e : FlowEdge} {sp : String} (hsp : assocGet pm e.source = some sp) :
    edgeInternal pm gids e =
      (decide (assocGet pm e.target = some sp) && gids.contains sp) := by
  simp [edgeInternal, hsp]

theorem edgeInternal_none {pm : List (String × String)} {gids : List String}
    {e : FlowEdge} (hsp : assocGet pm e.source = none) :
    edgeInternal pm gids e = false := by
  simp [edgeInternal, hsp]

/-- The main fold invariant for the edge-partition loop. -/
theorem partition_fold_spec (pm : List (String × String)) (gids : List String) :
    ∀ (edges : List FlowEdge) (ge : List (String × List ElkEdge)) (re : List ElkEdge),
    (∀ k, (assocGet ge k).isSome = gids.contains k) →
    (∀ k, (assocGet (edges.foldl (partitionStep pm gids) (ge, re)).1 k).isSome =
        gids.contains k) ∧
    (edges.foldl (partitionStep pm gids) (ge, re)).2 =
      re ++ (edges.filter fun e => !(edgeInternal pm gids e)).map elkOfEdge ∧
    (∀ gid v, assocGet ge gid = some v →
      assocGet (edges.foldl (partitionStep pm gids) (ge, re)).1 gid =
        some (v ++ (edges.filter fun e => edgeInternalTo pm gids gid e).map elkOfEdge)) ∧
    (∀ x, ((edges.foldl (partitionStep pm gids) (ge, re)).2 ++
        (edges.foldl (partitionStep pm gids) (ge, re)).1.flatMap (fun p => p.2)).count x =
      ((re ++ ge.flatMap (fun p => p.2)).count x + (edges.map elkOfEdge).count x)) := by
  intro edges
  induction edges with
  | nil =>
    intro ge re hb
    refine ⟨hb, by simp, ?_, by simp⟩
    intro gid v hv
    simpa using hv
  | cons e rest ih =>
    intro ge re hb
    rw [List.foldl_cons]
    rw [partitionStep]
    try dsimp only
    cases hsp : assocGet pm e.source with
    | none =>
      try dsimp only
      have hint : edgeInternal pm gids e = false := edgeInternal_none hsp
      obtain ⟨ihb, iha, ihc, ihd⟩ := ih ge (re ++ [elkOfEdge e]) hb
      refine ⟨ihb, ?_, ?_, ?_⟩
      · rw [iha, List.filter_cons_of_pos (by simp [hint]), List.map_cons,
          List.append_assoc]
        rfl
      · intro gid v hv
        rw [ihc gid v hv, List.filter_cons_of_neg (by simp [edgeInternalTo_none hsp])]
      · intro x
        rw [ihd x]
        simp [List.count_append, List.count_cons]
        omega
    | some sp =>
      try dsimp only
      by_cases hcond : (decide (assocGet pm e.target = some sp) && gids.contains sp) = true
      · rw [if_pos (by simpa using hcond)]
        obtain ⟨hct, hcg⟩ : assocGet pm e.target = some sp ∧ gids.contains sp = true := by
          simpa using hcond
        have hint : edgeInternal pm gids e = true := by
          rw [edgeInternal_cond hsp]
          exact hcond
        have hsome : (assocGet ge sp).isSome = true := by
          rw [hb sp]
          exact hcg
        obtain ⟨old, hold⟩ := Option.isSome_iff_exists.1 hsome
        rw [hold]
        dsimp only [Option.getD]
        have hb' : ∀ k, (assocGet (assocSet ge sp (old ++ [elkOfEdge e])) k).isSome =
            gids.contains k := by
          intro k
          by_cases hk : k = sp
          · subst hk
            rw [assocGet_assocSet_self]
            exact hcg.symm
          · rw [assocGet_assocSet_ne _ _ _ _ hk]
            exact hb k
        obtain ⟨ihb, iha, ihc, ihd⟩ := ih (assocSet ge sp (old ++ [elkOfEdge e])) re hb'
        refine ⟨ihb, ?_, ?_, ?_⟩
        · rw [iha, List.filter_cons_of_neg (by simp [hint])]
        · intro gid v hv
          by_cases hk : gid = sp
          · subst hk
            have hv' : v = old := Option.some.inj (hv.symm.trans hold)
            subst hv'
            rw [ihc gid (v ++ [elkOfEdge e]) (assocGet_assocSet_self _ _ _)]
            rw [List.filter_cons_of_pos (by rw [edgeInternalTo_self hsp]; exact hint)]
            simp
          · rw [ihc gid v (by rw [assocGet_assocSet_ne _ _ _ _ hk]; exact hv)]
            rw [List.filter_cons_of_neg (by simp [edgeInternalTo_ne hsp hk])]
        · intro x
          rw [ihd x]
          simp only [List.count_append]
          rw [count_flatMap_assocSet hold (elkOfEdge e) x]
          simp [List.count_append, List.count_cons]
          omega
      · rw [if_neg (by simpa using hcond)]
        have hint : edgeInternal pm gids e = false := by
          rw [edgeInternal_cond hsp]
          exact Bool.not_eq_true _ ▸ (by simpa using hcond)
        obtain ⟨ihb, iha, ihc, ihd⟩ := ih ge (re ++ [elkOfEdge e]) hb
        refine ⟨ihb, ?_, ?_, ?_⟩
        · rw [iha, List.filter_cons_of_pos (by simp [hint]), List.map_cons,
            List.append_assoc]
          rfl
        · intro gid v hv
          have hito : edgeInternalTo pm gids gid e = false := by
            by_cases hk : gid = sp
            · subst hk
              rw [edgeInternalTo_self hsp]
              exact hint
            · exact edgeInternalTo_ne hsp hk
          rw [ihc gid v hv, List.filter_cons_of_neg (by simp [hito])]
        · intro x
          rw [ihd x]
          simp [List.count_append, List.count_cons]
          omega



theorem assocGet_foldl_setNil (gids : List String) :
    ∀ (m : List (String × List ElkEdge)) (k : String),
    (assocGet (gids.foldl (fun m g => assocSet m g []) m) k).isSome =
      ((assocGet m k).isSome || gids.contains k) := by
  induction gids with
  | nil =>
    intro m k
    simp
  | cons g rest ih =>
    intro m k
    rw [List.foldl_cons, ih]
    by_cases h : k = g
    · subst h
      rw [assocGet_assocSet_self]
      simp
    · rw [assocGet_assocSet_ne _ _ _ _ h]
      simp [List.contains_cons, h]

theorem initGroupEdges_isSome (gids : List String) (k : String) :
    (assocGet (initGroupEdges gids) k).isSome = gids.contains k := by
  rw [initGroupEdges, assocGet_foldl_setNil]
  simp [assocGet]

theorem mem_assocSet_nil {m : List (String × List ElkEdge)} {k : String}
    (h : ∀ p ∈ m, p.2 = ([] : List ElkEdge)) :
    ∀ p ∈ assocSet m k [], p.2 = ([] : List ElkEdge) := by
  induction m with
  | nil =>
    intro p hp
    simp only [assocSet, List.mem_singleton] at hp
    subst hp
    rfl
  | cons q rest ih =>
    intro p hp
    obtain ⟨q1, q2⟩ := q
    rw [assocSet] at hp
    by_cases hq : q1 = k
    · rw [if_pos hq] at hp
      rcases List.mem_cons.1 hp with rfl | hp2
      · rfl
      · exact h p (List.mem_cons_of_mem _ hp2)
    · rw [if_neg hq] at hp
      rcases List.mem_cons.1 hp with rfl | hp2
      · exact h _ (List.mem_cons_self _ _)
      · exact ih (fun r hr => h r (List.mem_cons_of_mem _ hr)) p hp2

theorem foldl_setNil_values (gids : List String) :
    ∀ (m : List (String × List ElkEdge)),
    (∀ p ∈ m, p.2 = ([] : List ElkEdge)) →
    ∀ p ∈ gids.foldl (fun m g => assocSet m g []) m, p.2 = ([] : List ElkEdge) := by
  induction gids with
  | nil =>
    intro m h
    simpa using h
  | cons g rest ih =>
    intro m h
    rw [List.foldl_cons]
    exact ih _ (mem_assocSet_nil h)

theorem flatMap_values_nil {m : List (String × List ElkEdge)}
    (h : ∀ p ∈ m, p.2 = ([] : List ElkEdge)) :
    m.flatMap (fun p => p.2) = [] := by
  induction m with
  | nil => rfl
  | cons p rest ih =>
    rw [List.flatMap_cons, h p (List.mem_cons_self _ _),
      ih (fun r hr => h r (List.mem_cons_of_mem _ hr))]
    rfl

theorem initGroupEdges_values_nil (gids : List String) :
    ∀ p ∈ initGroupEdges gids, p.2 = ([] : List ElkEdge) :=
  foldl_setNil_values gids [] (by simp)

theorem initGroupEdges_flatMap_nil (gids : List String) :
    (initGroupEdges gids).flatMap (fun p => p.2) = [] :=
  flatMap_values_nil (initGroupEdges_values_nil gids)

theorem initGroupEdges_lookup {gids : List String} {gid : String}
    (h : gid ∈ gids) : assocGet (initGroupEdges gids) gid = some [] := by
  have hs : (assocGet (initGroupEdges gids) gid).isSome = true := by
    rw [initGroupEdges_isSome]
    simp [h]
  obtain ⟨v, hv⟩ := Option.isSome_iff_exists.1 hs
  have hnil : v = [] := initGroupEdges_values_nil gids (gid, v) (assocGet_mem hv)
  rw [hv, hnil]

theorem parentMap_foldl_notkey :
    ∀ (nodes : List FlowNode) (m : List (String × String)) (k : String),
    (∀ n ∈ nodes, n.id ≠ k) →
    assocGet (nodes.foldl (fun m n =>
      match n.parentCteId with
      | some p => assocSet m n.id p
      | none => m) m) k = assocGet m k := by
  intro nodes
  induction nodes with
  | nil =>
    intro m k _
    rfl
  | cons n0 rest ih =>
    intro m k h
    rw [List.foldl_cons, ih _ _ (fun r hr => h r (List.mem_cons_of_mem _ hr))]
    cases hp : n0.parentCteId with
    | none => rfl
    | some p =>
      exact assocGet_assocSet_ne _ _ _ _ (Ne.symm (h n0 (List.mem_cons_self _ _)))

theorem parentMap_foldl_lookup :
    ∀ (nodes : List FlowNode) (m : List (String × String)),
    (nodes.map (fun n => n.id)).Nodup →
    (∀ n ∈ nodes, assocGet m n.id = none) →
    ∀ n ∈ nodes,
      assocGet (nodes.foldl (fun m n =>
        match n.parentCteId with
        | some p => assocSet m n.id p
        | none => m) m) n.id = n.parentCteId := by
  intro nodes
  induction nodes with
  | nil =>
    intro m _ _ n hn
    exact absurd hn (List.not_mem_nil _)
  | cons n0 rest ih =>
    intro m hnd h0 n hn
    rw [List.map_cons, List.nodup_cons] at hnd
    rw [List.foldl_cons]
    rcases List.mem_cons.1 hn with rfl | hn2
    · have hne : ∀ r ∈ rest, r.id ≠ n.id := by
        intro r hr hEq
        exact hnd.1 (hEq ▸ List.mem_map_of_mem _ hr)
      rw [parentMap_foldl_notkey rest _ n.id hne]
      cases hp : n.parentCteId with
      | none => exact h0 n (List.mem_cons_self _ _)
      | some p => exact assocGet_assocSet_self m n.id p
    · refine ih _ hnd.2 ?_ n hn2
      intro r hr
      have hne : r.id ≠ n0.id := by
        intro hEq
        exact hnd.1 (hEq ▸ List.mem_map_of_mem _ hr)
      cases hp : n0.parentCteId with
      | none => exact h0 r (List.mem_cons_of_mem _ hr)
      | some p =>
        show assocGet (assocSet m n0.id p) r.id = none
        rw [assocGet_assocSet_ne _ _ _ _ hne]
        exact h0 r (List.mem_cons_of_mem _ hr)

theorem layoutParentMap_lookup {nodes : List FlowNode}
    (hnd : (nodes.map fun n => n.id).Nodup) :
    ∀ n ∈ nodes, assocGet (layoutParentMap nodes) n.id = n.parentCteId := by
  intro n hn
  exact parentMap_foldl_lookup nodes [] hnd (fun _ _ => rfl) n hn

/-- C7: `computeLayout` partitions the edges exactly as stated: an edge lands
in a `cte-group` compound node's internal list precisely when both endpoints
are mapped by the parent map to that group's id and the id belongs to a
`cte-group` node; all other edges land on the root list; every edge is placed
exactly once (the root list together with all buckets is a permutation of the
edge list); and, when node ids are distinct, the parent map agrees with each
node's `parentCteId`. -/
theorem c7_partition (g : FlowGraph)
    (hnd : (g.nodes.map fun n => n.id).Nodup) :
    ((partitionEdges g).2 =
      (g.edges.filter fun e =>
        !(edgeInternal (layoutParentMap g.nodes) (layoutGroupIds g.nodes) e)).map
        elkOfEdge) ∧
    (∀ gid ∈ layoutGroupIds g.nodes,
      assocGet (partitionEdges g).1 gid =
        some ((g.edges.filter fun e =>
          edgeInternalTo (layoutParentMap g.nodes) (layoutGroupIds g.nodes) gid e).map
          elkOfEdge)) ∧
    (∀ gid, gid ∉ layoutGroupIds g.nodes →
      assocGet (partitionEdges g).1 gid = none) ∧
    List.Perm
      ((partitionEdges g).2 ++ (partitionEdges g).1.flatMap (fun p => p.2))
      (g.edges.map elkOfEdge) ∧
    (∀ n ∈ g.nodes, assocGet (layoutParentMap g.nodes) n.id = n.parentCteId) := by
  obtain ⟨h1, h2, h3, h4⟩ :=
    partition_fold_spec (layoutParentMap g.nodes) (layoutGroupIds g.nodes)
      g.edges (initGroupEdges (layoutGroupIds g.nodes)) []
      (fun k => initGroupEdges_isSome _ k)
  have hpe : partitionEdges g =
      g.edges.foldl
        (partitionStep (layoutParentMap g.nodes) (layoutGroupIds g.nodes))
        (initGroupEdges (layoutGroupIds g.nodes), []) := rfl
  refine ⟨?_, ?_, ?_, ?_, layoutParentMap_lookup hnd⟩
  · rw [hpe, h2]
    rfl
  · intro gid hgid
    rw [hpe]
    have := h3 gid [] (initGroupEdges_lookup hgid)
    simpa using this
  · intro gid hgid
    rw [hpe]
    have hk := h1 gid
    have hc : (layoutGroupIds g.nodes).contains gid = false := by
      simp [hgid]
    rw [hc] at hk
    cases hopt : assocGet
        (g.edges.foldl
          (partitionStep (layoutParentMap g.nodes) (layoutGroupIds g.nodes))
          (initGroupEdges (layoutGroupIds g.nodes), [])).1 gid with
    | none => rfl
    | some v =>
      rw [hopt] at hk
      simp at hk
  · rw [hpe]
    refine List.perm_iff_count.2 ?_
    intro x
    have := h4 x
    rw [initGroupEdges_flatMap_nil] at this
    simpa using this

theorem c7_partition_witness :
    ((layoutDemoGraph.nodes.map fun n => n.id).Nodup) ∧
    (partitionEdges layoutDemoGraph).2 =
      [{ id := "e2", sources := ["b"], targets := ["c"] }] :=
  ⟨by decide, by
    rw [(c7_partition layoutDemoGraph (by decide)).1]
    rfl⟩

end ViewSql
